import Mathlib

/-!
Verification of the Voyadecir Azure Functions repository
(`src/ocr_http/__init__.py` and `src/tts_http/__init__.py`).

The Python code is shallowly embedded: byte strings become `List Nat`
(one entry per byte), decoded text becomes `String`/`List Char`, parsed
JSON becomes the inductive `JVal`, and the outbound HTTP calls of the
pipeline are modelled by injecting the responses of the external service
as explicit values.  Fallible code returns `Except`/`Option`; an uncaught
Python exception is modelled as `Except.error ()`.
-/

set_option maxRecDepth 100000

namespace Voyadecir

/-- Raw byte strings (`bytes` in Python): lists of byte values. -/
abbrev Bytes := List Nat

/-! ### Parsed JSON values -/

/-- The result of `json.loads`: Python `None`/`bool`/`int`/`str`/`list`/`dict`.
Floats do not occur in any claim and are not modelled. -/
inductive JVal where
  | null
  | bool (b : Bool)
  | num (n : Int)
  | str (s : String)
  | arr (elems : List JVal)
  | obj (fields : List (String × JVal))

/-- Is this the JSON string `s`?  (`v == "s"` in Python: equality with a
string can only hold for a string value.) -/
def isStr (x : Option JVal) (s : String) : Bool :=
  match x with
  | some (.str t) => t = s
  | _ => false

/-- Python truthiness of a JSON value (`bool(v)`). -/
def pyTruthy : JVal → Bool
  | .null => false
  | .bool b => b
  | .num n => n != 0
  | .str s => s ≠ ""
  | .arr l => !l.isEmpty
  | .obj l => !l.isEmpty

/-- `dict.get(k)`: first binding of `k`, or `none` (Python `None`). -/
def objGet (fields : List (String × JVal)) (k : String) : Option JVal :=
  (fields.find? (fun kv => kv.1 = k)).map (fun kv => kv.2)

/-- Python `x or y` where `x` is a `dict.get` result (`none` models `None`). -/
def pyOrJ (x : Option JVal) (y : Option JVal) : Option JVal :=
  match x with
  | some v => if pyTruthy v then some v else y
  | none => y

/-- Python `x or d` where `x` is a `dict.get` result and `d` a default value. -/
def pyOrJD (x : Option JVal) (d : JVal) : JVal :=
  match x with
  | some v => if pyTruthy v then v else d
  | none => d

/-- Python `x or y` where `x : Optional[str]` (empty strings are falsy). -/
def pyOrStr (x : Option String) (y : String) : String :=
  match x with
  | some s => if s = "" then y else s
  | none => y

/-- Python `x or y` for two `Optional[str]` values, keeping the option. -/
def pyOrOptStr (x y : Option String) : Option String :=
  match x with
  | some s => if s = "" then y else some s
  | none => y

/-! ### Text helpers (Python `str` methods, restricted to the ASCII
range where all evaluated inputs live) -/

/-- Python `str.lower()` (ASCII case folding; the code only lowers
header values, which are ASCII). -/
def pyLower (s : String) : String := String.mk (s.toList.map Char.toLower)

/-- Python `str.startswith(pre)`. -/
def pyStartsWith (s pre : String) : Bool := pre.toList.isPrefixOf s.toList

/-- Python `str.upper()` (ASCII). -/
def pyUpper (s : String) : String := String.mk (s.toList.map Char.toUpper)

/-- ASCII whitespace, as matched by Python `str.strip()` / regex `\s`. -/
def isPyWSChar (c : Char) : Bool :=
  c = ' ' ∨ c = '\t' ∨ c = '\n' ∨ c = '\r' ∨ c = '\x0b' ∨ c = '\x0c'

/-- Python `str.strip()` on a character list. -/
def pyStripWSChars (l : List Char) : List Char :=
  ((l.dropWhile isPyWSChar).reverse.dropWhile isPyWSChar).reverse

/-- Python `str.strip()`. -/
def pyStrip (s : String) : String := String.mk (pyStripWSChars s.toList)

/-- Python `s[:n]`: the first `n` characters. -/
def pyTake (s : String) (n : Nat) : String := String.mk (s.toList.take n)

/-! ### ContentSniffer: `_infer_content_type` -/

/-- `_infer_content_type` from `src/ocr_http/__init__.py` (lines 160-171):
magic-number sniffing of PDF / JPEG / PNG / GIF prefixes with an
octet-stream fallback. -/
def inferContentType (data : Bytes) : String :=
  if data = [] then "application/octet-stream"
  else if [37, 80, 68, 70].isPrefixOf data then "application/pdf"
  else if [255, 216, 255].isPrefixOf data then "image/jpeg"
  else if [137, 80, 78, 71, 13, 10, 26, 10].isPrefixOf data then "image/png"
  else if data.take 6 = [71, 73, 70, 56, 55, 97] ∨ data.take 6 = [71, 73, 70, 56, 57, 97]
    then "image/gif"
  else "application/octet-stream"

/-! ### ResultExtractor: `_extract_text` -/

/-- The value the code binds to `full_text` before slicing: a top-level
`content` key wins (its value, or `""` when falsy); otherwise a dict-valued
`analyzeResult` supplies `analyzeResult.content`; otherwise `full_text`
keeps its initial `""`. -/
def extractTextVal (kvs : List (String × JVal)) : JVal :=
  match objGet kvs "content" with
  | some v => if pyTruthy v then v else .str ""
  | none =>
    match objGet kvs "analyzeResult" with
    | some (.obj a) =>
      match objGet a "content" with
      | some v => if pyTruthy v then v else .str ""
      | none => .str ""
    | _ => .str ""

/-- `_extract_text` (lines 385-393): returns `(snippet, full_text)` with
`snippet = full_text[:1000]`.  A non-string truthy `content` value makes
the code raise downstream (slicing/stripping a non-string); that
exceptional outcome is `none`. -/
def extractText (kvs : List (String × JVal)) : Option (String × String) :=
  match extractTextVal kvs with
  | .str s => some (pyTake s 1000, s)
  | _ => none

/-- The schema-variant payload of the claim: two pages of one line each
(`"Hello"`, `"World"`) and no flattened `content` field. -/
def pagesOnlyPayload : List (String × JVal) :=
  [("pages", .arr
    [.obj [("lines", .arr [.obj [("content", .str "Hello")]])],
     .obj [("lines", .arr [.obj [("content", .str "World")]])]])]

/-! ### Byte-string helpers (Python `bytes` methods) -/

/-- Is the byte a CR or LF?  (the set `b"\r\n"` used by `strip`). -/
def isCRLFb (b : Nat) : Bool := b = 13 ∨ b = 10

/-- Python `p.strip(b"\r\n")`. -/
def stripCRLF (xs : Bytes) : Bytes :=
  ((xs.dropWhile isCRLFb).reverse.dropWhile isCRLFb).reverse

/-- Python `p.rstrip(b"\r\n")`. -/
def rstripCRLF (xs : Bytes) : Bytes :=
  (xs.reverse.dropWhile isCRLFb).reverse

/-- Python `haystack.find(sep)`: index of the first occurrence of the
contiguous byte sequence `sep`, `none` for `-1`. -/
def findSeq (sep : List Nat) : List Nat → Option Nat
  | [] => if sep.isEmpty then some 0 else none
  | x :: xs => if sep.isPrefixOf (x :: xs) then some 0 else (findSeq sep xs).map (· + 1)

/-- Python `body.split(sep)` (fuelled; `fuel ≥ body.length` makes the fuel
irrelevant, see `splitOnSeqF_congr`). -/
def splitOnSeqF (sep : List Nat) : Nat → List Nat → List (List Nat)
  | 0, xs => [xs]
  | fuel + 1, xs =>
    match findSeq sep xs with
    | none => [xs]
    | some i => xs.take i :: splitOnSeqF sep fuel (xs.drop (i + sep.length))

/-- Python `body.split(sep)` for a non-empty separator. -/
def splitOnSeq (sep xs : List Nat) : List (List Nat) := splitOnSeqF sep xs.length xs

/-- Is a byte a UTF-8 continuation byte (`0x80..0xBF`)? -/
def isCont (b : Nat) : Bool := 128 ≤ b ∧ b < 192

/-- Python `blob.decode("utf-8", errors="ignore")`: UTF-8 decoding that
skips undecodable bytes, with explicit fuel to keep the recursion
structural (each step consumes at least one byte, so `fuel = length`
suffices).  (Overlong/surrogate rejection is not modelled; every input
this development evaluates it on is plain ASCII, where all UTF-8
decoders agree byte-for-byte.) -/
def utf8IgnoreF : Nat → List Nat → List Char
  | 0, _ => []
  | _, [] => []
  | fuel + 1, b :: rest =>
    if b < 128 then Char.ofNat b :: utf8IgnoreF fuel rest
    else if 194 ≤ b ∧ b ≤ 223 then
      match rest with
      | c :: r2 =>
        if isCont c then Char.ofNat ((b - 192) * 64 + (c - 128)) :: utf8IgnoreF fuel r2
        else utf8IgnoreF fuel (c :: r2)
      | [] => []
    else if 224 ≤ b ∧ b ≤ 239 then
      match rest with
      | c :: d :: r3 =>
        if isCont c ∧ isCont d then
          Char.ofNat (((b - 224) * 64 + (c - 128)) * 64 + (d - 128)) :: utf8IgnoreF fuel r3
        else utf8IgnoreF fuel (c :: d :: r3)
      | _ => []
    else if 240 ≤ b ∧ b ≤ 244 then
      match rest with
      | c :: d :: e :: r4 =>
        if isCont c ∧ isCont d ∧ isCont e then
          Char.ofNat ((((b - 240) * 64 + (c - 128)) * 64 + (d - 128)) * 64 + (e - 128))
            :: utf8IgnoreF fuel r4
        else utf8IgnoreF fuel (c :: d :: e :: r4)
      | _ => []
    else utf8IgnoreF fuel rest

/-- `blob.decode("utf-8", errors="ignore")`. -/
def utf8Ignore (l : List Nat) : List Char := utf8IgnoreF l.length l

/-- UTF-8 encoding of one character (`str.encode("utf-8")`, per char). -/
def utf8EncodeChar (c : Char) : List Nat :=
  let n := c.toNat
  if n < 128 then [n]
  else if n < 2048 then [192 + n / 64, 128 + n % 64]
  else if n < 65536 then [224 + n / 4096, 128 + (n / 64) % 64, 128 + n % 64]
  else [240 + n / 262144, 128 + (n / 4096) % 64, 128 + (n / 64) % 64, 128 + n % 64]

/-- Python `s.encode("utf-8")` on a character list. -/
def strBytesL (l : List Char) : Bytes := l.flatMap utf8EncodeChar

/-- Python `s.encode("utf-8")`. -/
def strBytes (s : String) : Bytes := strBytesL s.toList

/-! ### The regular-expression searches of `_parse_multipart`,
translated to their leftmost-match semantics -/

/-- Case-insensitive prefix test (ASCII patterns under `re.IGNORECASE`). -/
def ciIsPrefix : List Char → List Char → Bool
  | [], _ => true
  | _ :: _, [] => false
  | p :: ps, c :: cs => (p.toLower = c.toLower) && ciIsPrefix ps cs

/-- Does `pat` occur contiguously in the character list? (Python `in`.) -/
def containsSeq (pat : List Char) : List Char → Bool
  | [] => pat.isEmpty
  | c :: cs => pat.isPrefixOf (c :: cs) || containsSeq pat cs

/-- `re.search(r"boundary=(.+)", content_type)`: at the leftmost position
where `boundary=` is followed by at least one non-newline character, the
greedy capture runs to the next `\n` or the end. -/
def reBoundaryCapture : List Char → Option (List Char)
  | [] => none
  | c :: cs =>
    if ("boundary=".toList).isPrefixOf (c :: cs) then
      let cap := ((c :: cs).drop 9).takeWhile (fun x => x ≠ '\n')
      if cap ≠ [] then some cap else reBoundaryCapture cs
    else reBoundaryCapture cs

/-- `re.search(r'filename="([^"]+)"', blob, re.IGNORECASE)`: at the
leftmost position where `filename="` (case-insensitively) is followed by a
non-empty run of non-quote characters and a closing quote, capture that
run; positions where the full pattern cannot match are skipped. -/
def reFilenameCapture : List Char → Option (List Char)
  | [] => none
  | c :: cs =>
    if ciIsPrefix "filename=\"".toList (c :: cs) then
      let after := (c :: cs).drop 10
      let cap := after.takeWhile (fun x => x ≠ '"')
      if cap ≠ [] ∧ after.dropWhile (fun x => x ≠ '"') ≠ [] then some cap
      else reFilenameCapture cs
    else reFilenameCapture cs

/-- `re.search(r"content-type:\s*([^\r\n]+)", blob, re.IGNORECASE)`: after
the leftmost viable `content-type:`, the greedy `\s*` eats the whitespace
run; if a character remains it starts the `[^\r\n]+` capture, else the
regex backtracks into the whitespace, matching at the last position
holding a non-CR/LF (space-like) character. -/
def reContentTypeCapture : List Char → Option (List Char)
  | [] => none
  | c :: cs =>
    if ciIsPrefix "content-type:".toList (c :: cs) then
      let after := (c :: cs).drop 13
      let w := after.takeWhile isPyWSChar
      let r := after.drop w.length
      if r ≠ [] then some (r.takeWhile (fun x => ¬(x = '\r' ∨ x = '\n')))
      else
        match w.reverse.dropWhile (fun x => x = '\r' ∨ x = '\n') with
        | [] => reContentTypeCapture cs
        | x :: _ => some [x]
    else reContentTypeCapture cs

/-! ### MultipartExtractor: `_parse_multipart` -/

/-- The per-segment loop of `_parse_multipart` (lines 194-238): from the
first segment that has headers, a `Content-Disposition` with `filename=`,
and a non-empty body after trimming the framing CRLFs, return
`(file_bytes, part content-type, filename)`. -/
def scanParts : List Bytes → Option (Bytes × Option String × Option String)
  | [] => none
  | part :: rest =>
    let p := stripCRLF part
    if p = [] ∨ p = [45, 45] then scanParts rest
    else
      let p := if [45, 45].isSuffixOf p then stripCRLF (p.take (p.length - 2)) else p
      match findSeq [13, 10, 13, 10] p with
      | none => scanParts rest
      | some headerEnd =>
        let headerBlob := utf8Ignore (p.take headerEnd)
        let dataBlob := rstripCRLF (p.drop (headerEnd + 4))
        if ¬ containsSeq "content-disposition".toList (headerBlob.map Char.toLower) then
          scanParts rest
        else if ¬ containsSeq "filename=".toList (headerBlob.map Char.toLower) then
          scanParts rest
        else if dataBlob ≠ [] then
          some (dataBlob,
            (reContentTypeCapture headerBlob).map (fun l => String.mk (pyStripWSChars l)),
            (reFilenameCapture headerBlob).map (fun l => String.mk l))
        else scanParts rest

/-- `_parse_multipart` (lines 174-238): extract the boundary from the
`Content-Type` header (optionally quoted), split the body on
`--boundary`, and scan the segments. -/
def parseMultipart (body : Bytes) (contentType : String) :
    Option (Bytes × Option String × Option String) :=
  match reBoundaryCapture contentType.toList with
  | none => none
  | some cap =>
    let bnd := pyStripWSChars cap
    let bnd := if bnd.head? = some '"' ∧ bnd.getLast? = some '"'
      then (bnd.drop 1).dropLast else bnd
    scanParts (splitOnSeq (strBytesL ('-' :: '-' :: bnd)) body)

/-! ### UploadResolver: `_extract_upload` -/

inductive UploadErr where
  | emptyBody
  | noFileFound
  deriving DecidableEq

/-- The `(bytes, content_type, filename)` tuple produced by `_extract_upload`. -/
structure UploadPayload where
  bytes : Bytes
  contentType : String
  filename : Option String
  deriving DecidableEq

/-- `_extract_upload` (lines 241-268).  A request is its body plus its
`Content-Type` header (the only header the function reads).  An empty body
is a terminal `EmptyBody`; a declared `multipart/form-data` type goes to
`_parse_multipart` (no file part is a terminal `NoFileFound`); anything
else is the raw document. -/
def extractUpload (body : Bytes) (contentTypeHdr : Option String) :
    Except UploadErr UploadPayload :=
  if body = [] then .error .emptyBody
  else if pyStartsWith (pyLower (contentTypeHdr.getD "")) "multipart/form-data" then
    match parseMultipart body (contentTypeHdr.getD "") with
    | some (fileBytes, fileCt, filename) =>
      if fileBytes = [] then .error .noFileFound
      else .ok ⟨fileBytes, pyOrStr fileCt (inferContentType fileBytes), filename⟩
    | none => .error .noFileFound
  else
    let rawCt := contentTypeHdr.getD ""
    .ok ⟨body,
      if rawCt ≠ "" ∧ ¬ pyStartsWith (pyLower rawCt) "application/json"
        then rawCt else inferContentType body,
      none⟩

/-! ### AnalysisClient: `_analyze_document` -/

/-- A response to the outbound `POST`: status, body, headers as returned
by `urllib` (`dict(resp.getheaders())`, exact-case keys). -/
structure HttpResp where
  status : Nat
  body : Bytes
  headers : List (String × String)

/-- `dict.get(k)` on the response-header dict. -/
def headerGet (hs : List (String × String)) (k : String) : Option String :=
  (hs.find? (fun kv => kv.1 = k)).map (fun kv => kv.2)

inductive AnalyzeErr where
  | configMissing
  | httpStatus (status : Nat)
  | noOperationLocation
  deriving DecidableEq

/-- `resp_headers.get("operation-location") or
resp_headers.get("Operation-Location") or
resp_headers.get("Operation-location")` (lines 316-320): the three exact
spellings the code probes, chained by Python `or`. -/
def opLocationOf (hs : List (String × String)) : Option String :=
  pyOrOptStr (headerGet hs "operation-location")
    (pyOrOptStr (headerGet hs "Operation-Location")
      (headerGet hs "Operation-location"))

/-- `_analyze_document` (lines 274-328), with the response of the POST to
the analysis service injected as `resp` and the endpoint/key presence
check abstracted to `configOk`.  Success returns the
`operation-location` URL. -/
def analyzeDocument (configOk : Bool) (resp : HttpResp) : Except AnalyzeErr String :=
  if !configOk then .error .configMissing
  else if resp.status ≠ 202 then .error (.httpStatus resp.status)
  else
    match opLocationOf resp.headers with
    | none => .error .noOperationLocation
    | some loc => if loc = "" then .error .noOperationLocation else .ok loc

/-! ### AnalysisClient: `_poll_result` -/

/-- One `GET` response of the poll loop: HTTP status plus the JSON parse
of its body (`none` when `json.loads`/`decode` raises, which the code
catches). -/
structure PollResp where
  status : Nat
  body : Option JVal

inductive PollOutcome where
  | succeeded (payload : List (String × JVal))
  | failed (payload : List (String × JVal))
  | pollError (status : Nat)
  | decodeError
  | timedOut

/-- `data.get("status") or data.get("analyzeResult", {}).get("status")`
on the fields of the parsed dict; `.error ()` is the uncaught
`AttributeError` raised when the `analyzeResult` value is not a dict. -/
def statusFieldObj (kvs : List (String × JVal)) : Except Unit (Option JVal) :=
  let s1 := objGet kvs "status"
  if (s1.map pyTruthy).getD false then .ok s1
  else
    match (objGet kvs "analyzeResult").getD (.obj []) with
    | .obj a => .ok (objGet a "status")
    | _ => .error ()

/-- The loop body of `_poll_result` (lines 342-377): `resps n` is the
response of the `n`-th GET, `fuel` the remaining attempts.  `.error ()`
is an uncaught exception (non-dict JSON body). -/
def pollFrom (resps : Nat → PollResp) : Nat → Nat → Except Unit PollOutcome
  | _, 0 => .ok .timedOut
  | i, fuel + 1 =>
    let r := resps i
    if r.status ≠ 200 then .ok (.pollError r.status)
    else
      match r.body with
      | none => .ok .decodeError
      | some (.obj kvs) =>
        match statusFieldObj kvs with
        | .error () => .error ()
        | .ok sf =>
          if isStr sf "succeeded" ∨ isStr sf "Succeeded" then .ok (.succeeded kvs)
          else if isStr sf "failed" ∨ isStr sf "Failed" then .ok (.failed kvs)
          else pollFrom resps (i + 1) fuel
      | some _ => .error ()

/-- `_poll_result` (lines 331-382) for a given attempt budget. -/
def pollResult (resps : Nat → PollResp) (attempts : Nat) : Except Unit PollOutcome :=
  pollFrom resps 0 attempts

/-- A poll response whose parsed status field is `running`. -/
def pollRunning (r : PollResp) : Prop :=
  r.status = 200 ∧ ∃ kvs, r.body = some (.obj kvs) ∧
    statusFieldObj kvs = .ok (some (.str "running"))

/-- A poll response that keeps the loop going: HTTP 200, a JSON dict
body, and a status field that is none of the four terminal strings. -/
def pollNonTerminal (r : PollResp) : Prop :=
  r.status = 200 ∧ ∃ kvs sf, r.body = some (.obj kvs) ∧ statusFieldObj kvs = .ok sf ∧
    isStr sf "succeeded" = false ∧ isStr sf "Succeeded" = false ∧
    isStr sf "failed" = false ∧ isStr sf "Failed" = false

/-- A poll response whose parsed status field is `a` or `b` (used with the
terminal pairs `succeeded`/`Succeeded` and `failed`/`Failed`). -/
def pollStatusIn (r : PollResp) (a b : String) : Prop :=
  r.status = 200 ∧ ∃ kvs sf, r.body = some (.obj kvs) ∧ statusFieldObj kvs = .ok sf ∧
    (isStr sf a = true ∨ isStr sf b = true)

/-! ### RequestHandler: `main` of `ocr_http` -/

/-- One inbound request together with the injected behaviour of the
external analysis service. -/
structure OcrWorld where
  method : String
  body : Bytes
  contentType : Option String
  configOk : Bool
  submitResp : HttpResp
  pollResps : Nat → PollResp
  pollAttempts : Nat

/-- The observable parts of the handler's HTTP response: status code and
the `ok`/`message`/`ocr_text`/`ocr_text_snippet` fields of the JSON body
(`none` when the field is absent, e.g. the body-less 204 preflight). -/
structure OcrResponse where
  status : Nat
  ok : Option Bool
  message : Option String
  ocrText : Option String
  ocrSnippet : Option String
  deriving DecidableEq

def uploadErrMessage : UploadErr → String
  | .emptyBody => "Request body is empty."
  | .noFileFound => "No file found in multipart/form-data. Upload must include a file."

def analyzeErrMessage : AnalyzeErr → String
  | .configMissing => "Azure Document Intelligence endpoint or key is not configured."
  | .httpStatus s => "Analyze call failed with HTTP " ++ toString s ++ "."
  | .noOperationLocation => "Analyze call did not return operation-location header."

def pollOutcomeMessage : PollOutcome → Option String
  | .pollError s => some ("Poll failed with HTTP " ++ toString s ++ ".")
  | .decodeError => some "Failed to decode JSON from poll response."
  | .failed _ => some "Analyze operation reported failed."
  | .timedOut => some "Timed out waiting for analyze result."
  | .succeeded _ => none

/-- `main` of `ocr_http` (lines 399-472): CORS preflight, upload
extraction (errors → 400), analyze submission (errors → 200 with
`ok:false`), polling (errors → 200 with `ok:false`), text extraction,
blank-text check, success assembly; an uncaught exception is the
top-level `except` returning 500. -/
def ocrMain (w : OcrWorld) : OcrResponse :=
  if pyUpper w.method = "OPTIONS" then ⟨204, none, none, none, none⟩
  else
    match extractUpload w.body w.contentType with
    | .error e => ⟨400, some false, some (uploadErrMessage e), none, none⟩
    | .ok _payload =>
      match analyzeDocument w.configOk w.submitResp with
      | .error e => ⟨200, some false, some (analyzeErrMessage e), none, none⟩
      | .ok _opUrl =>
        match pollResult w.pollResps w.pollAttempts with
        | .error () => ⟨500, some false, some "Unhandled exception in ocr_http.", none, none⟩
        | .ok (.succeeded kvs) =>
          match extractText kvs with
          | none => ⟨500, some false, some "Unhandled exception in ocr_http.", none, none⟩
          | some (snippet, fullText) =>
            if pyStrip fullText = "" then
              ⟨200, some false, some "OCR returned no text. Try a clearer photo or PDF.",
                none, none⟩
            else
              ⟨200, some true, some "OCR succeeded.", some fullText, some snippet⟩
        | .ok outcome =>
          ⟨200, some false, pollOutcomeMessage outcome, none, none⟩

/-! ### `tts_http` -/

/-- What the TTS handler does with a request, up to (and excluding) the
network call to the speech service. -/
inductive TtsOutcome where
  | preflight
  | configMissing
  | noText
  | serviceCall (ssml : String)
  deriving DecidableEq

/-- `_ssml` from `src/tts_http/__init__.py` (lines 20-27). -/
def ssmlOf (text lang voice : String) : String :=
  let voice := if voice = "" then
    (if pyStartsWith (pyLower lang) "es" then "es-MX-DaliaNeural" else "en-US-JennyNeural")
    else voice
  let langTag := if pyStartsWith (pyLower lang) "es" then "es-MX" else "en-US"
  "<speak version='1.0' xml:lang='" ++ langTag ++ "'>\n  <voice name='" ++ voice ++ "'>"
    ++ text ++ "</voice>\n</speak>"

/-- `(data.get(k) or default).strip()`; `.error ()` is the uncaught
`AttributeError` when the resulting value is not a string. -/
def getStrStrip (kvs : List (String × JVal)) (k : String) (dflt : String) :
    Except Unit String :=
  match pyOrJD (objGet kvs k) (.str dflt) with
  | .str s => .ok (pyStrip s)
  | _ => .error ()

/-- `main` of `tts_http` (lines 30-126) up to the outbound call:
preflight, config check, body parse (`get_json` failures fall back to an
empty dict), text/lang/voice extraction, empty-text rejection, SSML
construction.  `parsedBody` is the JSON parse of the request body
(`none` when parsing raises). -/
def ttsMain (configOk : Bool) (method : String) (parsedBody : Option JVal) :
    Except Unit TtsOutcome :=
  if method = "OPTIONS" then .ok .preflight
  else if !configOk then .ok .configMissing
  else
    match parsedBody.getD (.obj []) with
    | .obj kvs =>
      match getStrStrip kvs "text" "", getStrStrip kvs "lang" "en-US",
          getStrStrip kvs "voice" "" with
      | .ok text, .ok lang, .ok voice =>
        if text = "" then .ok .noText else .ok (.serviceCall (ssmlOf text lang voice))
      | _, _, _ => .error ()
    | _ => .error ()

/-- The HTTP status and JSON body of the responses the TTS handler sends
without calling the speech service (`none` for `serviceCall`, whose
response depends on the service). -/
def ttsResponse : TtsOutcome → Option (Nat × String)
  | .preflight => some (204, "")
  | .configMissing => some (500, "\x7b\"error\": \"Server TTS config missing.\"\x7d")
  | .noText => some (400, "\x7b\"error\": \"No text provided.\"\x7d")
  | .serviceCall _ => none

/-- Does the outcome reach the outbound call to the speech service? -/
def ttsCallsService : TtsOutcome → Bool
  | .serviceCall _ => true
  | _ => false

/-! ### Spec-side multipart encoder (for the round-trip property)

Modelled from the spec: "a synthetically constructed multipart body with
one file part", i.e. a single part whose `Content-Disposition` carries
`filename=`, CRLF framing, and a closing `--boundary--` marker.  The
boundary is the fixed token `XBOUNDARYX`. -/

/-- The boundary marker `--XBOUNDARYX` the body is delimited with. -/
def mpMarker : Bytes := strBytes "--XBOUNDARYX"

/-- The part headers before the filename value. -/
def mpHdrA : Bytes := strBytes "Content-Disposition: form-data; name=\"file\"; filename=\""

/-- The part headers after the filename value, blank line included. -/
def mpHdrB : Bytes := strBytes "\"\r\nContent-Type: application/pdf\r\n\r\n"

/-- `mpHdrB` without its final blank line (`\r\n\r\n`). -/
def mpHdrBHead : Bytes := strBytes "\"\r\nContent-Type: application/pdf"

/-- Modelled from the spec: a well-formed `multipart/form-data` body with
one file part holding `payload` under `filename`. -/
def encodeMultipart (filename : String) (payload : Bytes) : Bytes :=
  mpMarker ++ [13, 10] ++ mpHdrA ++ strBytes filename ++ mpHdrB
    ++ payload ++ [13, 10] ++ mpMarker ++ [45, 45]

/-- Modelled from the spec: the `Content-Type` header declaring that body. -/
def encodeMultipartCT : String := "multipart/form-data; boundary=XBOUNDARYX"

/-- Side conditions on the synthetic part under which the minimal parser
can recover the filename: ASCII, non-empty, and free of quotes, CR, LF. -/
def filenameOk (fn : String) : Prop :=
  fn ≠ "" ∧ ∀ c ∈ fn.toList, c.toNat < 128 ∧ c ≠ '"' ∧ c ≠ '\r' ∧ c ≠ '\n'

/-- Does `sep` occur contiguously in `xs`? -/
def occursIn (sep xs : List Nat) : Prop := ∃ n, sep.isPrefixOf (xs.drop n) = true

/-- No occurrence of `sep` starts inside `X` when `rest` follows it. -/
def noStartAt (sep X rest : List Nat) : Prop :=
  ∀ n, n < X.length → sep.isPrefixOf ((X ++ rest).drop n) = false

/-- Decidable check behind `noStartAt` for a concrete `X`: occurrences
starting in `X` only read `sep.length - 1` bytes past it, so checking
against a known prefix `pad` of the continuation suffices. -/
def noStartB (sep X pad : List Nat) : Bool :=
  (List.range X.length).all (fun n => !(sep.isPrefixOf ((X ++ pad).drop n)))

/-- The character-level analogue of `noStartB` for the case-insensitive
pattern searches. -/
def ciNoStartB (pat X pad : List Char) : Bool :=
  (List.range X.length).all (fun n => !(ciIsPrefix pat ((X ++ pad).drop n)))

/-- No two adjacent entries of `X` are `a` then `b`. -/
def pairFree (a b : Nat) : List Nat → Bool
  | [] => true
  | [_] => true
  | x :: y :: r => ((x != a) || (y != b)) && pairFree a b (y :: r)

/-! ## Theorems -/

/-! ### Generic list helpers -/

theorem prefixOf_exists {α : Type} [BEq α] [LawfulBEq α] :
    ∀ {l₁ l₂ : List α}, l₁.isPrefixOf l₂ = true → ∃ t, l₂ = l₁ ++ t := by
  intro l₁
  induction l₁ with
  | nil => exact fun {l₂} _ => ⟨l₂, rfl⟩
  | cons a as ih =>
    intro l₂ h
    cases l₂ with
    | nil => simp [List.isPrefixOf] at h
    | cons b bs =>
      simp only [List.isPrefixOf, Bool.and_eq_true, beq_iff_eq] at h
      obtain ⟨t, ht⟩ := ih h.2
      exact ⟨t, by rw [ht, h.1]; simp⟩

theorem isPrefixOf_append_self {α : Type} [BEq α] [LawfulBEq α] (l t : List α) :
    l.isPrefixOf (l ++ t) = true := by
  induction l with
  | nil => simp [List.isPrefixOf]
  | cons a as ih => simp [List.isPrefixOf, ih]

/-! ### C5: ContentSniffer signature mapping -/

/-- C5 counterexample: the claim promises `image/tiff` for the prefix
`II*\0`, but `_infer_content_type` has no TIFF case and falls through to
the octet-stream fallback. -/
theorem c5_counterexample : inferContentType [73, 73, 42, 0] ≠ "image/tiff" := by decide

/-- C5 (amended): the sniffer maps the PDF, JPEG, PNG and GIF prefixes to
their exact MIME strings and everything else — the TIFF prefixes
`II*\0`/`MM\0*` included — to `application/octet-stream`; it is total. -/
theorem c5_sniffer :
    (∀ d : Bytes, [37, 80, 68, 70].isPrefixOf d = true →
      inferContentType d = "application/pdf") ∧
    (∀ d : Bytes, [255, 216, 255].isPrefixOf d = true →
      inferContentType d = "image/jpeg") ∧
    (∀ d : Bytes, [137, 80, 78, 71, 13, 10, 26, 10].isPrefixOf d = true →
      inferContentType d = "image/png") ∧
    (∀ d : Bytes, d.take 6 = [71, 73, 70, 56, 55, 97] ∨ d.take 6 = [71, 73, 70, 56, 57, 97] →
      inferContentType d = "image/gif") ∧
    (∀ d : Bytes, [37, 80, 68, 70].isPrefixOf d = false →
      [255, 216, 255].isPrefixOf d = false →
      [137, 80, 78, 71, 13, 10, 26, 10].isPrefixOf d = false →
      d.take 6 ≠ [71, 73, 70, 56, 55, 97] → d.take 6 ≠ [71, 73, 70, 56, 57, 97] →
      inferContentType d = "application/octet-stream") := by
  refine ⟨?_, ?_, ?_, ?_, ?_⟩
  · intro d h
    obtain ⟨t, rfl⟩ := prefixOf_exists h
    simp [inferContentType, isPrefixOf_append_self]
  · intro d h
    obtain ⟨t, rfl⟩ := prefixOf_exists h
    simp [inferContentType, isPrefixOf_append_self, List.isPrefixOf]
  · intro d h
    obtain ⟨t, rfl⟩ := prefixOf_exists h
    simp [inferContentType, isPrefixOf_append_self, List.isPrefixOf]
  · intro d h
    have hshape : ∃ t, d = d.take 6 ++ t := ⟨d.drop 6, (List.take_append_drop 6 d).symm⟩
    rcases h with h | h <;>
    · rw [h] at hshape
      obtain ⟨t, rfl⟩ := hshape
      simp [inferContentType, List.isPrefixOf, List.take]
  · intro d h1 h2 h3 h4 h5
    by_cases hd : d = []
    · rw [hd]; rfl
    · simp [inferContentType, hd, h1, h2, h3, h4, h5]

/-- C5 witness: the amended theorem at two concrete buffers. -/
theorem c5_witness :
    inferContentType [255, 216, 255, 0] = "image/jpeg" ∧
    inferContentType [0, 1, 2] = "application/octet-stream" :=
  ⟨c5_sniffer.2.1 [255, 216, 255, 0] (by decide),
   c5_sniffer.2.2.2.2 [0, 1, 2] (by decide) (by decide) (by decide) (by decide) (by decide)⟩

/-! ### C2: ResultExtractor resolution order -/

/-- C2 counterexample: on a payload holding only a
`pages[].lines[].content` structure (two pages of one line each), the
claimed fallback would yield `"Hello\nWorld"`, but `_extract_text` has no
pages fallback and returns the empty string. -/
theorem c2_counterexample :
    ¬ ((extractText pagesOnlyPayload).map Prod.snd = some "Hello\nWorld") := by
  intro h
  have h0 : extractText pagesOnlyPayload = some ("", "") := rfl
  rw [h0] at h
  simp at h

/-- C2 (amended): extraction prefers a top-level string `content`, then
`analyzeResult.content`; a payload with neither — the pages-only
structure included — yields the empty full text (there is no
`pages[].lines[]` fallback), and the snippet is the 1000-character
prefix. -/
theorem c2_extract_text :
    (∀ (kvs : List (String × JVal)) (s : String),
      objGet kvs "content" = some (.str s) → extractText kvs = some (pyTake s 1000, s)) ∧
    (∀ (kvs : List (String × JVal)) (a : List (String × JVal)) (s : String),
      objGet kvs "content" = none → objGet kvs "analyzeResult" = some (.obj a) →
      objGet a "content" = some (.str s) → extractText kvs = some (pyTake s 1000, s)) ∧
    (∀ kvs : List (String × JVal), objGet kvs "content" = none →
      objGet kvs "analyzeResult" = none → extractText kvs = some ("", "")) ∧
    extractText pagesOnlyPayload = some ("", "") := by
  refine ⟨?_, ?_, ?_, rfl⟩
  · intro kvs s h
    by_cases hs : s = "" <;>
      simp [extractText, extractTextVal, h, pyTruthy, hs]
  · intro kvs a s h1 h2 h3
    by_cases hs : s = "" <;>
      simp [extractText, extractTextVal, h1, h2, h3, pyTruthy, hs]
  · intro kvs h1 h2
    simp [extractText, extractTextVal, h1, h2]
    decide

/-- C2 witness: the amended theorem at the two flat payload shapes. -/
theorem c2_witness :
    extractText [("content", JVal.str "ABC")] = some ("ABC", "ABC") ∧
    extractText [("analyzeResult", JVal.obj [("content", JVal.str "XYZ")])] =
      some ("XYZ", "XYZ") := by
  constructor
  · have h := c2_extract_text.1 [("content", JVal.str "ABC")] "ABC" rfl
    rw [h]; decide
  · have h := c2_extract_text.2.1 [("analyzeResult", JVal.obj [("content", JVal.str "XYZ")])]
      [("content", JVal.str "XYZ")] "XYZ" rfl rfl rfl
    rw [h]; decide

/-! ### C3: AnalysisClient submit outcome -/

/-- C3 counterexample: a `200` submission response with the header is
rejected (`_analyze_document` accepts only `202`), and so is a `202`
response whose operation-location header uses a spelling outside the
three the code probes — the match is not case-insensitive. -/
theorem c3_counterexample :
    (¬ ∃ loc, analyzeDocument true ⟨200, [], [("Operation-Location", "u")]⟩ = .ok loc) ∧
    (¬ ∃ loc, analyzeDocument true ⟨202, [], [("OPERATION-LOCATION", "u")]⟩ = .ok loc) := by
  constructor
  · rintro ⟨loc, h⟩
    have h0 : analyzeDocument true ⟨200, [], [("Operation-Location", "u")]⟩ =
      .error (.httpStatus 200) := rfl
    rw [h0] at h
    exact Except.noConfusion h
  · rintro ⟨loc, h⟩
    have h0 : analyzeDocument true ⟨202, [], [("OPERATION-LOCATION", "u")]⟩ =
      .error .noOperationLocation := rfl
    rw [h0] at h
    exact Except.noConfusion h

/-- C3 (amended): submission yields the operation handle exactly when the
response status is `202` and one of the three probed spellings
`operation-location`/`Operation-Location`/`Operation-location` carries a
non-empty value; missing configuration, any other status (`200`
included), and a missing/empty header all yield submit errors. -/
theorem c3_submit :
    ∀ (cfg : Bool) (resp : HttpResp),
      (cfg = false → analyzeDocument cfg resp = .error .configMissing) ∧
      (cfg = true → resp.status ≠ 202 →
        analyzeDocument cfg resp = .error (.httpStatus resp.status)) ∧
      (cfg = true → resp.status = 202 → ∀ loc, opLocationOf resp.headers = some loc →
        loc ≠ "" → analyzeDocument cfg resp = .ok loc) ∧
      (cfg = true → resp.status = 202 →
        (opLocationOf resp.headers = none ∨ opLocationOf resp.headers = some "") →
        analyzeDocument cfg resp = .error .noOperationLocation) := by
  intro cfg resp
  refine ⟨?_, ?_, ?_, ?_⟩
  · intro h; rw [h]; rfl
  · intro hc hs
    rw [hc]
    simp [analyzeDocument, hs]
  · intro hc hs loc hloc hne
    rw [hc]
    simp [analyzeDocument, hs, hloc, hne]
  · intro hc hs hloc
    rw [hc]
    rcases hloc with h | h <;> simp [analyzeDocument, hs, h]

/-- C3 witness: a `202` with the lowercase header spelling submits. -/
theorem c3_witness : analyzeDocument true ⟨202, [], [("operation-location", "u")]⟩ = .ok "u" :=
  (c3_submit true ⟨202, [], [("operation-location", "u")]⟩).2.2.1 rfl rfl "u" rfl (by decide)

/-! ### C1: UploadResolver JSON priority -/

/-- C1 counterexample: a request whose body is the valid JSON
`{"bytes_b64": "QQ=="}` (base64 for the byte `A` = 65) is never
base64-decoded — `_extract_upload` has no JSON path and returns the raw
JSON text bytes as the document. -/
theorem c1_counterexample :
    ¬ ∃ ct fn, extractUpload
      [123, 34, 98, 121, 116, 101, 115, 95, 98, 54, 52, 34, 58, 32, 34, 81, 81, 61, 61, 34, 125]
      (some "application/json") = .ok ⟨[65], ct, fn⟩ := by
  rintro ⟨ct, fn, h⟩
  have h0 : extractUpload
      [123, 34, 98, 121, 116, 101, 115, 95, 98, 54, 52, 34, 58, 32, 34, 81, 81, 61, 61, 34, 125]
      (some "application/json") = .ok
      ⟨[123, 34, 98, 121, 116, 101, 115, 95, 98, 54, 52, 34, 58, 32, 34, 81, 81, 61, 61, 34, 125],
        "application/octet-stream", none⟩ := rfl
  rw [h0] at h
  simp only [Except.ok.injEq, UploadPayload.mk.injEq] at h
  simp at h

/-- C1 (amended): there is no JSON/base64 path.  (1) Any non-empty body
whose declared content type does not start with `multipart/form-data` — a
JSON body with `bytes_b64` included — is returned verbatim as the raw
document, with the declared header as content type unless it is absent or
starts with `application/json`, in which case the sniffed type is used.
(2) A declared multipart content type always routes to the multipart
parser: the result is NoFileFound when the parser finds no part or an
empty part, and otherwise exactly the parsed part's bytes, content type
(the parsed one, or the sniffed one when it is empty) and filename — never
the raw body.  (3) Concretely, the JSON body `{"bytes_b64": "QQ=="}` sent
as `application/json` comes back verbatim with the sniffed
`application/octet-stream` type, not decoded. -/
theorem c1_resolver :
    (∀ (body : Bytes) (hdr : Option String), body ≠ [] →
      pyStartsWith (pyLower (hdr.getD "")) "multipart/form-data" = false →
      extractUpload body hdr = .ok ⟨body,
        if hdr.getD "" ≠ "" ∧ ¬ pyStartsWith (pyLower (hdr.getD "")) "application/json"
          then hdr.getD "" else inferContentType body,
        none⟩) ∧
    (∀ (body : Bytes) (hdr : Option String), body ≠ [] →
      pyStartsWith (pyLower (hdr.getD "")) "multipart/form-data" = true →
      (parseMultipart body (hdr.getD "") = none →
        extractUpload body hdr = .error .noFileFound) ∧
      (∀ fct fname, parseMultipart body (hdr.getD "") = some ([], fct, fname) →
        extractUpload body hdr = .error .noFileFound) ∧
      (∀ fb fct fname, parseMultipart body (hdr.getD "") = some (fb, fct, fname) →
        fb ≠ [] →
        extractUpload body hdr = .ok ⟨fb, pyOrStr fct (inferContentType fb), fname⟩)) ∧
    extractUpload
      [123, 34, 98, 121, 116, 101, 115, 95, 98, 54, 52, 34, 58, 32, 34, 81, 81, 61, 61, 34, 125]
      (some "application/json") = .ok
      ⟨[123, 34, 98, 121, 116, 101, 115, 95, 98, 54, 52, 34, 58, 32, 34, 81, 81, 61, 61, 34, 125],
        "application/octet-stream", none⟩ := by
  refine ⟨?_, ?_, rfl⟩
  · intro body hdr hb hct
    simp only [extractUpload, if_neg hb, hct, Bool.false_eq_true, if_false]
  · intro body hdr hb hct
    refine ⟨?_, ?_, ?_⟩
    · intro hnone
      simp only [extractUpload, if_neg hb, hct, if_true, hnone]
    · intro fct fname hsome
      simp only [extractUpload, if_neg hb, hct, if_true, hsome, if_pos rfl]
    · intro fb fct fname hsome hfb
      simp only [extractUpload, if_neg hb, hct, if_true, hsome, if_neg hfb]

/-- C1 witness: the amended theorem at concrete inputs — a one-byte raw
body with no declared type gets the sniffed `application/octet-stream`,
and a declared multipart type with no parsable part yields NoFileFound. -/
theorem c1_witness :
    extractUpload [1] none = .ok ⟨[1], "application/octet-stream", none⟩ ∧
    extractUpload [1] (some "multipart/form-data") = .error .noFileFound := by
  constructor
  · have h := c1_resolver.1 [1] none (by decide) (by decide)
    rw [h]
    exact congrArg Except.ok (by decide)
  · exact (c1_resolver.2.1 [1] (some "multipart/form-data") (by decide)
      (by decide)).1 (by decide)

/-! ### C10: TTS input validation -/

/-- C10 counterexample: a body that is valid JSON but not an object
(here `[1]`) has no `text` field, yet the handler does not answer 400 —
`data.get("text")` raises `AttributeError` and the request fails as an
unhandled exception. -/
theorem c10_counterexample :
    ttsMain true "POST" (some (.arr [.num 1])) ≠ .ok .noText := by
  intro h
  exact Except.noConfusion h

/-- C10 (amended): for a non-OPTIONS request with speech key and region
configured, if the body is not valid JSON, or is a JSON object whose
`text` value is absent/falsy/blank (and whose `text`/`lang`/`voice`
values are strings whenever truthy), the handler returns 400 with
`{"error": "No text provided."}` and never reaches the speech-service
call; a valid-JSON non-object body instead raises. -/
theorem c10_tts_validation :
    ∀ (method : String) (parsed : Option JVal),
      method ≠ "OPTIONS" →
      (parsed = none ∨ ∃ kvs, parsed = some (.obj kvs) ∧
        (∀ v, objGet kvs "text" = some v → pyTruthy v = true →
          ∃ s, v = .str s ∧ pyStrip s = "") ∧
        (∀ v, objGet kvs "lang" = some v → pyTruthy v = true → ∃ s, v = .str s) ∧
        (∀ v, objGet kvs "voice" = some v → pyTruthy v = true → ∃ s, v = .str s)) →
      ttsMain true method parsed = .ok .noText ∧
      ttsResponse .noText = some (400, "\x7b\"error\": \"No text provided.\"\x7d") ∧
      ttsCallsService .noText = false := by
  intro method parsed hm hp
  refine ⟨?_, rfl, rfl⟩
  have htext : ∀ kvs : List (String × JVal),
      (∀ v, objGet kvs "text" = some v → pyTruthy v = true →
        ∃ s, v = .str s ∧ pyStrip s = "") →
      getStrStrip kvs "text" "" = .ok "" := by
    intro kvs h
    unfold getStrStrip pyOrJD
    cases hv : objGet kvs "text" with
    | none => rfl
    | some v =>
      cases htr : pyTruthy v with
      | false => simp only [htr, Bool.false_eq_true, if_false]; rfl
      | true =>
        obtain ⟨s, rfl, hs⟩ := h v hv htr
        simp [htr, hs]
  have hstr : ∀ (kvs : List (String × JVal)) (k d : String),
      (∀ v, objGet kvs k = some v → pyTruthy v = true → ∃ s, v = .str s) →
      ∃ r, getStrStrip kvs k d = .ok r := by
    intro kvs k d h
    unfold getStrStrip pyOrJD
    cases hv : objGet kvs k with
    | none => exact ⟨_, rfl⟩
    | some v =>
      cases htr : pyTruthy v with
      | false => simp only [htr, Bool.false_eq_true, if_false]; exact ⟨_, rfl⟩
      | true =>
        obtain ⟨s, rfl⟩ := h v hv htr
        simp only [htr, if_true]
        exact ⟨_, rfl⟩
  rcases hp with rfl | ⟨kvs, rfl, h1, h2, h3⟩
  · simp only [ttsMain, if_neg hm]
    rfl
  · obtain ⟨lg, hlg⟩ := hstr kvs "lang" "en-US" h2
    obtain ⟨vc, hvc⟩ := hstr kvs "voice" "" h3
    simp [ttsMain, hm, htext kvs h1, hlg, hvc]

/-- C10 witness: a whitespace-only `text` field is rejected as 400
without a service call. -/
theorem c10_witness :
    ttsMain true "POST" (some (.obj [("text", .str "  ")])) = .ok .noText ∧
    ttsResponse .noText = some (400, "\x7b\"error\": \"No text provided.\"\x7d") ∧
    ttsCallsService .noText = false :=
  c10_tts_validation "POST" (some (.obj [("text", .str "  ")])) (by decide)
    (Or.inr ⟨[("text", .str "  ")], rfl,
      (by intro v hv htr
          simp [objGet] at hv
          subst hv
          exact ⟨"  ", rfl, by decide⟩),
      (by intro v hv htr
          simp [objGet] at hv),
      (by intro v hv htr
          simp [objGet] at hv)⟩)

/-! ### C4: poll-loop terminal semantics -/

theorem isStr_ne {sf : Option JVal} {a b : String} (h : isStr sf a = true) (hab : a ≠ b) :
    isStr sf b = false := by
  cases sf with
  | none => rfl
  | some v =>
    cases v <;> simp [isStr] at h ⊢
    intro hb
    exact hab (h ▸ hb)

theorem pollRunning_nonTerminal {r : PollResp} (h : pollRunning r) : pollNonTerminal r := by
  obtain ⟨hs, kvs, hb, hsf⟩ := h
  exact ⟨hs, kvs, some (.str "running"), hb, hsf, by decide, by decide, by decide, by decide⟩

theorem pollFrom_step_nonTerminal (resps : Nat → PollResp) (i fuel : Nat)
    (h : pollNonTerminal (resps i)) :
    pollFrom resps i (fuel + 1) = pollFrom resps (i + 1) fuel := by
  obtain ⟨hs, kvs, sf, hb, hsf, h1, h2, h3, h4⟩ := h
  simp [pollFrom, hs, hb, hsf, h1, h2, h3, h4]

theorem pollFrom_skip (resps : Nat → PollResp) :
    ∀ (m i fuel : Nat), m ≤ fuel → (∀ j, j < m → pollNonTerminal (resps (i + j))) →
    pollFrom resps i fuel = pollFrom resps (i + m) (fuel - m) := by
  intro m
  induction m with
  | zero => intro i fuel _ _; simp
  | succ n ih =>
    intro i fuel hm hj
    cases fuel with
    | zero => omega
    | succ f =>
      have h0 : pollNonTerminal (resps i) := by
        have := hj 0 (Nat.succ_pos n)
        simpa using this
      rw [pollFrom_step_nonTerminal resps i f h0]
      have hrec := ih (i + 1) f (by omega) (fun j hjn => by
        have := hj (j + 1) (by omega)
        rw [show i + (j + 1) = i + 1 + j by omega] at this
        exact this)
      rw [hrec]
      congr 1
      · omega
      · omega

theorem pollFrom_step_succeeded (resps : Nat → PollResp) (i fuel : Nat)
    {kvs : List (String × JVal)} {sf : Option JVal}
    (hs : (resps i).status = 200) (hb : (resps i).body = some (.obj kvs))
    (hsf : statusFieldObj kvs = .ok sf)
    (ht : isStr sf "succeeded" = true ∨ isStr sf "Succeeded" = true) :
    pollFrom resps i (fuel + 1) = .ok (.succeeded kvs) := by
  rcases ht with h | h <;> simp [pollFrom, hs, hb, hsf, h]

theorem pollFrom_step_failed (resps : Nat → PollResp) (i fuel : Nat)
    {kvs : List (String × JVal)} {sf : Option JVal}
    (hs : (resps i).status = 200) (hb : (resps i).body = some (.obj kvs))
    (hsf : statusFieldObj kvs = .ok sf)
    (ht : isStr sf "failed" = true ∨ isStr sf "Failed" = true) :
    pollFrom resps i (fuel + 1) = .ok (.failed kvs) := by
  rcases ht with h | h
  · simp [pollFrom, hs, hb, hsf, h,
      isStr_ne h (by decide : ("failed" : String) ≠ "succeeded"),
      isStr_ne h (by decide : ("failed" : String) ≠ "Succeeded")]
  · simp [pollFrom, hs, hb, hsf, h,
      isStr_ne h (by decide : ("Failed" : String) ≠ "succeeded"),
      isStr_ne h (by decide : ("Failed" : String) ≠ "Succeeded")]

/-- C4: for every `k ≤ poll_attempts`, `k−1` running responses followed by
a `succeeded`/`Succeeded` one on attempt `k` yield `Succeeded` with that
payload; `failed`/`Failed` on attempt `k` likewise yields `Failed`;
`poll_attempts` consecutive non-terminal responses yield `TimedOut`; and
the status field is the truthy top-level `status`, else
`analyzeResult.status`. -/
theorem c4_poll_loop :
    (∀ (resps : Nat → PollResp) (attempts k : Nat), 1 ≤ k → k ≤ attempts →
      (∀ i, i + 1 < k → pollRunning (resps i)) →
      pollStatusIn (resps (k - 1)) "succeeded" "Succeeded" →
      ∃ kvs, (resps (k - 1)).body = some (.obj kvs) ∧
        pollResult resps attempts = .ok (.succeeded kvs)) ∧
    (∀ (resps : Nat → PollResp) (attempts k : Nat), 1 ≤ k → k ≤ attempts →
      (∀ i, i + 1 < k → pollRunning (resps i)) →
      pollStatusIn (resps (k - 1)) "failed" "Failed" →
      ∃ kvs, (resps (k - 1)).body = some (.obj kvs) ∧
        pollResult resps attempts = .ok (.failed kvs)) ∧
    (∀ (resps : Nat → PollResp) (attempts : Nat),
      (∀ i, i < attempts → pollNonTerminal (resps i)) →
      pollResult resps attempts = .ok .timedOut) ∧
    (∀ (kvs : List (String × JVal)) (v : JVal), objGet kvs "status" = some v →
      pyTruthy v = true → statusFieldObj kvs = .ok (some v)) ∧
    (∀ (kvs a : List (String × JVal)), objGet kvs "status" = none →
      objGet kvs "analyzeResult" = some (.obj a) →
      statusFieldObj kvs = .ok (objGet a "status")) := by
  have hskip : ∀ (resps : Nat → PollResp) (attempts k : Nat), 1 ≤ k → k ≤ attempts →
      (∀ i, i + 1 < k → pollRunning (resps i)) →
      pollResult resps attempts = pollFrom resps (k - 1) (attempts - (k - 1)) := by
    intro resps attempts k hk1 hk2 hrun
    unfold pollResult
    have := pollFrom_skip resps (k - 1) 0 attempts (by omega) (fun j hj => by
      have := hrun j (by omega)
      simpa using pollRunning_nonTerminal this)
    simpa using this
  refine ⟨?_, ?_, ?_, ?_, ?_⟩
  · intro resps attempts k hk1 hk2 hrun hterm
    obtain ⟨hs, kvs, sf, hb, hsf, ht⟩ := hterm
    refine ⟨kvs, hb, ?_⟩
    rw [hskip resps attempts k hk1 hk2 hrun]
    obtain ⟨f, hf⟩ : ∃ f, attempts - (k - 1) = f + 1 :=
      ⟨attempts - (k - 1) - 1, by omega⟩
    rw [hf]
    exact pollFrom_step_succeeded resps (k - 1) f hs hb hsf ht
  · intro resps attempts k hk1 hk2 hrun hterm
    obtain ⟨hs, kvs, sf, hb, hsf, ht⟩ := hterm
    refine ⟨kvs, hb, ?_⟩
    rw [hskip resps attempts k hk1 hk2 hrun]
    obtain ⟨f, hf⟩ : ∃ f, attempts - (k - 1) = f + 1 :=
      ⟨attempts - (k - 1) - 1, by omega⟩
    rw [hf]
    exact pollFrom_step_failed resps (k - 1) f hs hb hsf ht
  · intro resps attempts hall
    unfold pollResult
    have := pollFrom_skip resps attempts 0 attempts (le_refl _) (fun j hj => by
      simpa using hall j hj)
    simp at this
    rw [this]
    rfl
  · intro kvs v h htr
    simp [statusFieldObj, h, htr]
  · intro kvs a h1 h2
    simp [statusFieldObj, h1, h2]

/-- C4 witness: one running response then a succeeded one, with two
allowed attempts, polls to `Succeeded` with the second payload. -/
theorem c4_witness :
    ∃ kvs, ((fun i => if i = 0 then
        PollResp.mk 200 (some (.obj [("status", JVal.str "running")]))
      else PollResp.mk 200 (some (.obj [("status", JVal.str "succeeded")]))) (2 - 1)).body
        = some (.obj kvs) ∧
      pollResult (fun i => if i = 0 then
        PollResp.mk 200 (some (.obj [("status", JVal.str "running")]))
      else PollResp.mk 200 (some (.obj [("status", JVal.str "succeeded")]))) 2
        = .ok (.succeeded kvs) := by
  refine c4_poll_loop.1 (fun i => if i = 0 then
      PollResp.mk 200 (some (.obj [("status", JVal.str "running")]))
    else PollResp.mk 200 (some (.obj [("status", JVal.str "succeeded")]))) 2 2
    (by omega) (by omega) ?_ ?_
  · intro i hi
    have h0 : i = 0 := by omega
    subst h0
    exact ⟨rfl, [("status", JVal.str "running")], rfl, rfl⟩
  · exact ⟨rfl, [("status", JVal.str "succeeded")], some (.str "succeeded"), rfl, rfl,
      Or.inl (by decide)⟩

/-! ### C8: non-emptiness invariant of the resolver -/

theorem scanParts_some_ne_nil :
    ∀ (parts : List Bytes) (t : Bytes × Option String × Option String),
      scanParts parts = some t → t.1 ≠ [] := by
  intro parts
  induction parts with
  | nil => intro t h; simp [scanParts] at h
  | cons p rest ih =>
    intro t h
    simp only [scanParts] at h
    repeat' split at h
    all_goals first
      | exact ih t h
      | (cases h; assumption)

/-- C8: a payload returned without error always carries non-empty bytes:
the empty body is rejected as `EmptyBody` before any content-type
dispatch, and the multipart parser only ever returns a non-empty file
part. -/
theorem c8_nonempty :
    (∀ (body : Bytes) (hdr : Option String) (pl : UploadPayload),
      extractUpload body hdr = .ok pl → pl.bytes ≠ []) ∧
    (∀ hdr : Option String, extractUpload [] hdr = .error .emptyBody) ∧
    (∀ (body : Bytes) (ct : String) (t : Bytes × Option String × Option String),
      parseMultipart body ct = some t → t.1 ≠ []) := by
  refine ⟨?_, ?_, ?_⟩
  · intro body hdr pl h
    by_cases hb : body = []
    · simp [extractUpload, hb] at h
    · simp only [extractUpload, if_neg hb] at h
      split at h
      · split at h
        · rename_i heq
          split at h
          · exact absurd h (by simp)
          · rename_i hne
            cases h
            exact hne
        · exact absurd h (by simp)
      · cases h
        exact hb
  · intro hdr; rfl
  · intro body ct t h
    unfold parseMultipart at h
    split at h
    · exact absurd h (by simp)
    · exact scanParts_some_ne_nil _ t h

/-- C8 witness: a one-byte raw body resolves to a non-empty payload. -/
theorem c8_witness :
    ∃ pl : UploadPayload, extractUpload [5] none = .ok pl ∧ pl.bytes ≠ [] :=
  ⟨⟨[5], "application/octet-stream", none⟩, rfl,
    c8_nonempty.1 [5] none ⟨[5], "application/octet-stream", none⟩ rfl⟩

/-! ### C7: HTTP status policy of the handler -/

/-- C7: upload errors (`EmptyBody`, `NoFileFound`) answer 400;
configuration, submit and poll failures (`ConfigMissing`, `SubmitError`,
`PollError`, `AnalysisFailed`, `AnalysisTimedOut`) answer 200 with
`ok:false`; a 500 arises only from the modelled unhandled exceptions. -/
theorem c7_status_policy :
    ∀ w : OcrWorld, pyUpper w.method ≠ "OPTIONS" →
      (∀ e, extractUpload w.body w.contentType = .error e →
        ocrMain w = ⟨400, some false, some (uploadErrMessage e), none, none⟩) ∧
      (∀ (pl : UploadPayload) (e : AnalyzeErr),
        extractUpload w.body w.contentType = .ok pl →
        analyzeDocument w.configOk w.submitResp = .error e →
        ocrMain w = ⟨200, some false, some (analyzeErrMessage e), none, none⟩) ∧
      (∀ (pl : UploadPayload) (loc : String) (out : PollOutcome),
        extractUpload w.body w.contentType = .ok pl →
        analyzeDocument w.configOk w.submitResp = .ok loc →
        pollResult w.pollResps w.pollAttempts = .ok out →
        pollOutcomeMessage out ≠ none →
        ocrMain w = ⟨200, some false, pollOutcomeMessage out, none, none⟩) ∧
      ((ocrMain w).status = 500 →
        pollResult w.pollResps w.pollAttempts = .error () ∨
        ∃ kvs, pollResult w.pollResps w.pollAttempts = .ok (.succeeded kvs) ∧
          extractText kvs = none) := by
  intro w hm
  refine ⟨?_, ?_, ?_, ?_⟩
  · intro e he
    simp [ocrMain, hm, he]
  · intro pl e h1 h2
    simp [ocrMain, hm, h1, h2]
  · intro pl loc out h1 h2 h3 h4
    cases out with
    | succeeded kvs => simp [pollOutcomeMessage] at h4
    | failed kvs => simp [ocrMain, hm, h1, h2, h3, pollOutcomeMessage]
    | pollError s => simp [ocrMain, hm, h1, h2, h3, pollOutcomeMessage]
    | decodeError => simp [ocrMain, hm, h1, h2, h3, pollOutcomeMessage]
    | timedOut => simp [ocrMain, hm, h1, h2, h3, pollOutcomeMessage]
  · intro h500
    rcases hext : extractUpload w.body w.contentType with e | pl
    · simp [ocrMain, hm, hext] at h500
    rcases hana : analyzeDocument w.configOk w.submitResp with e | loc
    · simp [ocrMain, hm, hext, hana] at h500
    rcases hpoll : pollResult w.pollResps w.pollAttempts with u | out
    · cases u
      exact Or.inl rfl
    cases out with
    | succeeded kvs =>
      rcases hex : extractText kvs with _ | pr
      · exact Or.inr ⟨kvs, rfl, hex⟩
      · obtain ⟨sn, full⟩ := pr
        by_cases hb : pyStrip full = ""
        · simp [ocrMain, hm, hext, hana, hpoll, hex, hb] at h500
        · simp [ocrMain, hm, hext, hana, hpoll, hex, hb] at h500
    | failed kvs => simp [ocrMain, hm, hext, hana, hpoll] at h500
    | pollError s => simp [ocrMain, hm, hext, hana, hpoll] at h500
    | decodeError => simp [ocrMain, hm, hext, hana, hpoll] at h500
    | timedOut => simp [ocrMain, hm, hext, hana, hpoll] at h500

/-- C7 witness: an empty POST body answers 400 with `ok:false`. -/
theorem c7_witness :
    ocrMain ⟨"POST", [], none, false, ⟨0, [], []⟩, fun _ => ⟨0, none⟩, 0⟩ =
      ⟨400, some false, some (uploadErrMessage .emptyBody), none, none⟩ :=
  (c7_status_policy ⟨"POST", [], none, false, ⟨0, [], []⟩, fun _ => ⟨0, none⟩, 0⟩
    (by decide)).1 .emptyBody rfl

/-! ### C9: empty extracted text is reported as failure -/

/-- C9: a `Succeeded` analysis whose extracted full text strips to empty
is answered with `ok:false`, the fixed no-text message and HTTP 200; and
an `ok:true` response always carries a non-blank `ocr_text`. -/
theorem c9_blank_text :
    ∀ w : OcrWorld, pyUpper w.method ≠ "OPTIONS" →
      (∀ (pl : UploadPayload) (loc : String) (kvs : List (String × JVal)) (sn full : String),
        extractUpload w.body w.contentType = .ok pl →
        analyzeDocument w.configOk w.submitResp = .ok loc →
        pollResult w.pollResps w.pollAttempts = .ok (.succeeded kvs) →
        extractText kvs = some (sn, full) → pyStrip full = "" →
        ocrMain w = ⟨200, some false,
          some "OCR returned no text. Try a clearer photo or PDF.", none, none⟩) ∧
      ((ocrMain w).ok = some true →
        ∃ t, (ocrMain w).ocrText = some t ∧ pyStrip t ≠ "") := by
  intro w hm
  constructor
  · intro pl loc kvs sn full h1 h2 h3 h4 h5
    simp [ocrMain, hm, h1, h2, h3, h4, h5]
  · intro hok
    rcases hext : extractUpload w.body w.contentType with e | pl
    · simp [ocrMain, hm, hext] at hok
    rcases hana : analyzeDocument w.configOk w.submitResp with e | loc
    · simp [ocrMain, hm, hext, hana] at hok
    rcases hpoll : pollResult w.pollResps w.pollAttempts with u | out
    · simp [ocrMain, hm, hext, hana, hpoll] at hok
    cases out with
    | succeeded kvs =>
      rcases hex : extractText kvs with _ | pr
      · simp [ocrMain, hm, hext, hana, hpoll, hex] at hok
      · obtain ⟨sn, full⟩ := pr
        by_cases hb : pyStrip full = ""
        · simp [ocrMain, hm, hext, hana, hpoll, hex, hb] at hok
        · refine ⟨full, ?_, hb⟩
          simp [ocrMain, hm, hext, hana, hpoll, hex, hb]
    | failed kvs => simp [ocrMain, hm, hext, hana, hpoll] at hok
    | pollError s => simp [ocrMain, hm, hext, hana, hpoll] at hok
    | decodeError => simp [ocrMain, hm, hext, hana, hpoll] at hok
    | timedOut => simp [ocrMain, hm, hext, hana, hpoll] at hok

/-- C9 witness: a succeeded analysis whose `content` is a single space is
answered with the no-text failure at HTTP 200. -/
theorem c9_witness :
    ocrMain ⟨"POST", [1], none, true, ⟨202, [], [("operation-location", "u")]⟩,
        fun _ => ⟨200, some (.obj [("status", JVal.str "succeeded"),
          ("content", JVal.str " ")])⟩, 1⟩ =
      ⟨200, some false, some "OCR returned no text. Try a clearer photo or PDF.",
        none, none⟩ :=
  (c9_blank_text ⟨"POST", [1], none, true, ⟨202, [], [("operation-location", "u")]⟩,
      fun _ => ⟨200, some (.obj [("status", JVal.str "succeeded"),
        ("content", JVal.str " ")])⟩, 1⟩ (by decide)).1
    ⟨[1], "application/octet-stream", none⟩ "u"
    [("status", JVal.str "succeeded"), ("content", JVal.str " ")] " " " "
    rfl rfl rfl rfl (by decide)

/-! ### C6 machinery: occurrences of a separator in a byte string -/

theorem isPrefixOf_iff_take {α : Type} [BEq α] [LawfulBEq α] :
    ∀ (sep l : List α), sep.isPrefixOf l = true ↔ l.take sep.length = sep := by
  intro sep
  induction sep with
  | nil => intro l; simp [List.isPrefixOf]
  | cons a as ih =>
    intro l
    cases l with
    | nil => simp [List.isPrefixOf]
    | cons b bs =>
      simp only [List.isPrefixOf, Bool.and_eq_true, beq_iff_eq, List.length_cons,
        List.take, List.cons.injEq, ih]
      constructor
      · rintro ⟨h1, h2⟩; exact ⟨h1.symm, h2⟩
      · rintro ⟨h1, h2⟩; exact ⟨h1.symm, h2⟩

theorem take_drop_append {α : Type} (A B : List α) (n k : Nat) (h : n + k ≤ A.length) :
    ((A ++ B).drop n).take k = (A.drop n).take k := by
  rw [List.drop_append_eq_append_drop]
  have hn : n ≤ A.length := by omega
  rw [Nat.sub_eq_zero_of_le hn, List.drop_zero, List.take_append_eq_append_take]
  have hlen : k ≤ (A.drop n).length := by
    rw [List.length_drop]; omega
  rw [Nat.sub_eq_zero_of_le hlen, List.take_zero, List.append_nil]

theorem head?_append_left {α : Type} (A B : List α) (h : A ≠ []) :
    (A ++ B).head? = A.head? := by
  cases A with
  | nil => exact absurd rfl h
  | cons a as => rfl

theorem noStartAt_append (sep A B rest : List Nat)
    (h1 : noStartAt sep A (B ++ rest)) (h2 : noStartAt sep B rest) :
    noStartAt sep (A ++ B) rest := by
  intro n hn
  rw [List.append_assoc]
  rcases Nat.lt_or_ge n A.length with hlt | hge
  · exact h1 n hlt
  · have hsplit : (A ++ (B ++ rest)).drop n = (B ++ rest).drop (n - A.length) := by
      rw [List.drop_append_eq_append_drop, List.drop_eq_nil_of_le hge, List.nil_append]
    rw [hsplit]
    apply h2
    rw [List.length_append] at hn
    omega

theorem noStartAt_of_window (sep X pad rest : List Nat)
    (hlen : sep.length ≤ pad.length + 1) (hpref : pad.isPrefixOf rest = true)
    (hB : noStartB sep X pad = true) : noStartAt sep X rest := by
  intro n hn
  obtain ⟨t, rfl⟩ := prefixOf_exists hpref
  unfold noStartB at hB
  have hB' := (List.all_eq_true.mp hB) n (List.mem_range.mpr hn)
  rw [Bool.not_eq_eq_eq_not, Bool.not_true] at hB'
  rw [Bool.eq_false_iff] at hB' ⊢
  intro hpre
  apply hB'
  rw [isPrefixOf_iff_take] at hpre ⊢
  rw [← List.append_assoc] at hpre
  rw [take_drop_append (X ++ pad) t n sep.length
    (by rw [List.length_append]; omega)] at hpre
  rw [← take_drop_append (X ++ pad) [] n sep.length
    (by rw [List.length_append]; omega), List.append_nil] at hpre
  exact hpre

theorem noStartAt_of_head_notMem (sep X rest : List Nat) (h0 : Nat) (t : List Nat)
    (hsep : sep = h0 :: t) (hmem : h0 ∉ X) : noStartAt sep X rest := by
  intro n hn
  subst hsep
  rw [Bool.eq_false_iff]
  intro hpre
  obtain ⟨u, hu⟩ := prefixOf_exists hpre
  have hget : (X ++ rest).get? n = some h0 := by
    have := congrArg (fun l => l.get? 0) hu
    simpa [List.get?_drop] using this
  rw [List.get?_append (by omega)] at hget
  exact hmem (List.get?_mem hget)

theorem noStartAt_of_notOccurs (sep X rest : List Nat) (c : Nat)
    (hocc : ¬ occursIn sep X) (hhead : rest.head? = some c) (hc : c ∉ sep) :
    noStartAt sep X rest := by
  intro n hn
  rw [Bool.eq_false_iff]
  intro hpre
  rcases Nat.lt_or_ge X.length (n + sep.length) with hbig | hsmall
  · -- the occurrence would cover the first byte of `rest`, which is not in `sep`
    obtain ⟨u, hu⟩ := prefixOf_exists hpre
    have hL : ((X ++ rest).drop n).get? (X.length - n) = rest.head? := by
      rw [List.get?_drop, show n + (X.length - n) = X.length by omega,
        List.get?_append_right (le_refl _), Nat.sub_self]
      cases rest <;> rfl
    have hR : ((X ++ rest).drop n).get? (X.length - n) = sep.get? (X.length - n) := by
      rw [hu, List.get?_append (by omega)]
    have hmem : sep.get? (X.length - n) = some c := by rw [← hR, hL, hhead]
    exact hc (List.get?_mem hmem)
  · refine hocc ⟨n, ?_⟩
    rw [isPrefixOf_iff_take] at hpre ⊢
    rw [← take_drop_append X rest n sep.length hsmall]
    exact hpre

theorem append_ne_nil_left {α : Type} (A B : List α) (h : A ≠ []) : A ++ B ≠ [] := by
  cases A with
  | nil => exact absurd rfl h
  | cons a as => simp

theorem pairFree_get (a b : Nat) : ∀ (X : List Nat), pairFree a b X = true →
    ∀ n, ¬(X.get? n = some a ∧ X.get? (n + 1) = some b) := by
  intro X
  induction X with
  | nil =>
    rintro _ n ⟨h1, _⟩
    simp at h1
  | cons x xs ih =>
    intro hpf n
    cases xs with
    | nil =>
      rintro ⟨h1, h2⟩
      rw [List.get?_cons_succ, List.get?_nil] at h2
      cases h2
    | cons y r =>
      simp only [pairFree, Bool.and_eq_true, Bool.or_eq_true, bne_iff_ne] at hpf
      obtain ⟨hhead, htail⟩ := hpf
      rintro ⟨h1, h2⟩
      cases n with
      | zero =>
        simp only [List.get?, Option.some.injEq] at h1 h2
        rcases hhead with h | h
        · exact h h1
        · exact h h2
      | succ m => exact ih htail m ⟨h1, h2⟩

theorem pairFree_of_notMem (a b : Nat) (X : List Nat) (h : a ∉ X) :
    pairFree a b X = true := by
  induction X with
  | nil => rfl
  | cons x xs ih =>
    cases xs with
    | nil => rfl
    | cons y r =>
      simp only [pairFree, Bool.and_eq_true, Bool.or_eq_true, bne_iff_ne]
      refine ⟨Or.inl ?_, ?_⟩
      · intro hx
        exact h (hx ▸ List.mem_cons_self x (y :: r))
      · exact ih (fun hm => h (List.mem_cons_of_mem x hm))

theorem isPrefixOf_two {a b : Nat} {t l : List Nat}
    (h : (a :: b :: t).isPrefixOf l = true) :
    l.get? 0 = some a ∧ l.get? 1 = some b := by
  obtain ⟨u, rfl⟩ := prefixOf_exists h
  exact ⟨rfl, rfl⟩

theorem noStartAt_of_pairFree (sep X rest : List Nat) (a b : Nat) (t : List Nat)
    (hsep : sep = a :: b :: t) (hpf : pairFree a b X = true)
    (hlast : ¬(X.getLast? = some a ∧ rest.head? = some b)) : noStartAt sep X rest := by
  intro n hn
  subst hsep
  rw [Bool.eq_false_iff]
  intro hpre
  obtain ⟨h1, h2⟩ := isPrefixOf_two hpre
  rw [List.get?_drop] at h1 h2
  rcases Nat.lt_or_ge (n + 1) X.length with hlt | hge
  · rw [List.get?_append (by omega)] at h1
    rw [List.get?_append hlt] at h2
    exact pairFree_get a b X hpf n ⟨by simpa using h1, h2⟩
  · apply hlast
    constructor
    · rw [List.getLast?_eq_get?]
      rw [List.get?_append (by omega)] at h1
      rw [show X.length - 1 = n + 0 by omega]
      exact h1
    · rw [List.get?_append_right (by omega)] at h2
      rw [show n + 1 - X.length = 0 by omega] at h2
      cases rest with
      | nil => simp at h2
      | cons r rs => simpa using h2

/-! ### C6 machinery: `findSeq` and `splitOnSeq` -/

theorem findSeq_nil (sep : List Nat) (h : sep ≠ []) : findSeq sep [] = none := by
  simp [findSeq, List.isEmpty_iff, h]

theorem findSeq_cons_self (sep rest : List Nat) (h : sep ≠ []) :
    findSeq sep (sep ++ rest) = some 0 := by
  cases sep with
  | nil => exact absurd rfl h
  | cons a as => simp [findSeq, List.cons_append, isPrefixOf_append_self]

theorem findSeq_append_of_noStart (sep : List Nat) :
    ∀ (X rest : List Nat), noStartAt sep X rest → sep ≠ [] →
    sep.isPrefixOf rest = true → findSeq sep (X ++ rest) = some X.length := by
  intro X
  induction X with
  | nil =>
    intro rest _ hsep hpre
    cases rest with
    | nil =>
      obtain ⟨t, ht⟩ := prefixOf_exists hpre
      cases sep with
      | nil => exact absurd rfl hsep
      | cons a as => simp at ht
    | cons r rs => simp [findSeq, hpre]
  | cons x xs ih =>
    intro rest hns hsep hpre
    have h0 := hns 0 (by simp)
    rw [List.drop_zero, List.cons_append] at h0
    have hns' : noStartAt sep xs rest := by
      intro n hnlt
      have := hns (n + 1) (by simp; omega)
      rwa [List.cons_append, List.drop_succ_cons] at this
    rw [List.cons_append]
    simp only [findSeq, h0, Bool.false_eq_true, if_false]
    rw [ih rest hns' hsep hpre]
    rfl

theorem findSeq_some_bound (sep : List Nat) (hsep : sep ≠ []) :
    ∀ (xs : List Nat) (i : Nat), findSeq sep xs = some i → i + sep.length ≤ xs.length := by
  intro xs
  induction xs with
  | nil =>
    intro i h
    rw [findSeq_nil sep hsep] at h
    cases h
  | cons x xs ih =>
    intro i h
    simp only [findSeq] at h
    split at h
    · rename_i hp
      cases h
      obtain ⟨t, ht⟩ := prefixOf_exists hp
      have := congrArg List.length ht
      simp only [List.length_cons, List.length_append] at this
      simp only [Nat.zero_add, List.length_cons]
      omega
    · rcases ho : findSeq sep xs with _ | j
      · rw [ho] at h; simp at h
      · rw [ho] at h
        simp only [Option.map_some', Option.some.injEq] at h
        have := ih j ho
        simp only [List.length_cons]
        omega

theorem splitOnSeqF_congr (sep : List Nat) (hsep : sep ≠ []) :
    ∀ (f1 f2 : Nat) (xs : List Nat), xs.length ≤ f1 → xs.length ≤ f2 →
    splitOnSeqF sep f1 xs = splitOnSeqF sep f2 xs := by
  intro f1
  induction f1 with
  | zero =>
    intro f2 xs h1 h2
    have hx : xs = [] := List.eq_nil_of_length_eq_zero (by omega)
    subst hx
    cases f2 with
    | zero => rfl
    | succ g => simp [splitOnSeqF, findSeq_nil sep hsep]
  | succ f ih =>
    intro f2 xs h1 h2
    have hsl : 0 < sep.length := List.length_pos.mpr hsep
    cases f2 with
    | zero =>
      have hx : xs = [] := List.eq_nil_of_length_eq_zero (by omega)
      subst hx
      simp [splitOnSeqF, findSeq_nil sep hsep]
    | succ g =>
      rcases ho : findSeq sep xs with _ | i
      · simp only [splitOnSeqF, ho]
      · have hb := findSeq_some_bound sep hsep xs i ho
        have hl1 : (xs.drop (i + sep.length)).length ≤ f := by
          rw [List.length_drop]; omega
        have hl2 : (xs.drop (i + sep.length)).length ≤ g := by
          rw [List.length_drop]; omega
        simp only [splitOnSeqF, ho]
        rw [ih g _ hl1 hl2]

theorem splitOnSeq_step (sep xs : List Nat) (hsep : sep ≠ []) (i : Nat)
    (hf : findSeq sep xs = some i) :
    splitOnSeq sep xs = xs.take i :: splitOnSeq sep (xs.drop (i + sep.length)) := by
  have hb := findSeq_some_bound sep hsep xs i hf
  have hsl : 0 < sep.length := List.length_pos.mpr hsep
  unfold splitOnSeq
  cases xs with
  | nil =>
    rw [findSeq_nil sep hsep] at hf
    cases hf
  | cons x t =>
    simp only [List.length_cons, splitOnSeqF, hf]
    congr 1
    apply splitOnSeqF_congr sep hsep
    · rw [List.length_drop]
      simp only [List.length_cons] at hb ⊢
      omega
    · exact le_refl _

theorem splitOnSeq_of_none (sep xs : List Nat) (hf : findSeq sep xs = none) :
    splitOnSeq sep xs = [xs] := by
  unfold splitOnSeq
  cases xs with
  | nil => rfl
  | cons x t => simp only [List.length_cons, splitOnSeqF, hf]

theorem splitOnSeq_three (sep A B : List Nat) (hsep : sep ≠ [])
    (hA : noStartAt sep A (sep ++ B)) (hB : findSeq sep B = none) :
    splitOnSeq sep (sep ++ (A ++ (sep ++ B))) = [[], A, B] := by
  rw [splitOnSeq_step sep _ hsep 0 (findSeq_cons_self sep _ hsep)]
  simp only [List.take_zero, Nat.zero_add]
  rw [List.drop_left]
  rw [splitOnSeq_step sep _ hsep A.length
    (findSeq_append_of_noStart sep A (sep ++ B) hA hsep (isPrefixOf_append_self sep B))]
  rw [List.take_left]
  have hd : (A ++ (sep ++ B)).drop (A.length + sep.length) = B := by
    rw [← List.append_assoc,
      show A.length + sep.length = (A ++ sep).length by simp, List.drop_left]
  rw [hd, splitOnSeq_of_none sep B hB]

/-! ### C6 machinery: ASCII encoding/decoding, header scanning -/

theorem utf8EncodeChar_ascii (c : Char) (h : c.toNat < 128) :
    utf8EncodeChar c = [c.toNat] := by
  simp only [utf8EncodeChar]
  rw [if_pos h]

theorem strBytesL_ascii : ∀ (l : List Char), (∀ c ∈ l, c.toNat < 128) →
    strBytesL l = l.map Char.toNat := by
  intro l
  induction l with
  | nil => intro _; rfl
  | cons c cs ih =>
    intro h
    simp only [strBytesL, List.flatMap_cons] at ih ⊢
    rw [utf8EncodeChar_ascii c (h c (List.mem_cons_self _ _)),
      ih (fun d hd => h d (List.mem_cons_of_mem _ hd)), List.map_cons]
    rfl

theorem utf8Ignore_ascii_append : ∀ (A B : List Nat), (∀ c ∈ A, c < 128) →
    utf8Ignore (A ++ B) = A.map Char.ofNat ++ utf8Ignore B := by
  intro A
  induction A with
  | nil => intro B _; rfl
  | cons a as ih =>
    intro B h
    have ha : a < 128 := h a (List.mem_cons_self _ _)
    rw [List.cons_append]
    unfold utf8Ignore
    rw [List.length_cons]
    simp only [utf8IgnoreF, ha, if_true, List.map_cons, List.cons_append]
    exact congrArg _ (ih B (fun c hc => h c (List.mem_cons_of_mem _ hc)))

theorem map_ofNat_toNat (l : List Char) : (l.map Char.toNat).map Char.ofNat = l := by
  rw [List.map_map]
  have h : Char.ofNat ∘ Char.toNat = id := funext Char.ofNat_toNat
  rw [h, List.map_id]

theorem isPrefixOf_append_left {α : Type} [BEq α] [LawfulBEq α] (pat l B : List α)
    (h : pat.isPrefixOf l = true) : pat.isPrefixOf (l ++ B) = true := by
  obtain ⟨t, rfl⟩ := prefixOf_exists h
  rw [List.append_assoc]
  exact isPrefixOf_append_self pat (t ++ B)

theorem containsSeq_append_left (pat : List Char) : ∀ (A B : List Char),
    containsSeq pat A = true → containsSeq pat (A ++ B) = true := by
  intro A
  induction A with
  | nil =>
    intro B h
    simp only [containsSeq, List.isEmpty_iff] at h
    subst h
    cases B with
    | nil => rfl
    | cons b bs => simp [containsSeq, List.isPrefixOf]
  | cons a as ih =>
    intro B h
    simp only [containsSeq, Bool.or_eq_true] at h ⊢
    rcases h with h | h
    · exact Or.inl (by
        have := isPrefixOf_append_left pat (a :: as) B h
        rwa [List.cons_append] at this)
    · exact Or.inr (ih B h)

theorem takeWhile_append_all {α : Type} (p : α → Bool) : ∀ (A B : List α),
    (∀ c ∈ A, p c = true) → (A ++ B).takeWhile p = A ++ B.takeWhile p := by
  intro A
  induction A with
  | nil => intro B _; rfl
  | cons a as ih =>
    intro B h
    rw [List.cons_append, List.takeWhile_cons, if_pos (h a (List.mem_cons_self _ _)),
      ih B (fun c hc => h c (List.mem_cons_of_mem _ hc)), List.cons_append]

theorem dropWhile_append_all {α : Type} (p : α → Bool) : ∀ (A B : List α),
    (∀ c ∈ A, p c = true) → (A ++ B).dropWhile p = B.dropWhile p := by
  intro A
  induction A with
  | nil => intro B _; rfl
  | cons a as ih =>
    intro B h
    rw [List.cons_append, List.dropWhile_cons, if_pos (h a (List.mem_cons_self _ _)),
      ih B (fun c hc => h c (List.mem_cons_of_mem _ hc))]

theorem dropWhile_of_head_false {α : Type} (p : α → Bool) (X : List α) (c : α)
    (hh : X.head? = some c) (hc : p c = false) : X.dropWhile p = X := by
  cases X with
  | nil => cases hh
  | cons a as =>
    injection hh with hac
    rw [List.dropWhile_cons, hac, if_neg (by rw [hc]; exact Bool.false_ne_true)]

theorem dropWhile_idem {α : Type} (p : α → Bool) (l : List α) :
    (l.dropWhile p).dropWhile p = l.dropWhile p := by
  induction l with
  | nil => rfl
  | cons a as ih =>
    by_cases h : p a = true
    · rw [List.dropWhile_cons, if_pos h, ih]
    · rw [List.dropWhile_cons, if_neg h, List.dropWhile_cons, if_neg h]

theorem rstripCRLF_append (A B : Bytes) (h : rstripCRLF B ≠ []) :
    rstripCRLF (A ++ B) = A ++ rstripCRLF B := by
  unfold rstripCRLF at h ⊢
  rw [List.reverse_append, List.dropWhile_append]
  have hne : (B.reverse.dropWhile isCRLFb).isEmpty = false := by
    rw [List.isEmpty_eq_false_iff_exists_mem]
    cases hd : B.reverse.dropWhile isCRLFb with
    | nil => rw [hd] at h; exact absurd rfl h
    | cons x xs => exact ⟨x, List.mem_cons_self _ _⟩
  rw [hne, if_neg (by simp), List.reverse_append, List.reverse_reverse]

theorem rstripCRLF_append_crlf (X : Bytes) : rstripCRLF (X ++ [13, 10]) = rstripCRLF X := by
  unfold rstripCRLF
  rw [List.reverse_append]
  have : ([13, 10] : Bytes).reverse = [10, 13] := rfl
  rw [this]
  rw [show ([10, 13] : Bytes) ++ X.reverse = 10 :: 13 :: X.reverse from rfl]
  rw [List.dropWhile_cons, if_pos (by decide), List.dropWhile_cons, if_pos (by decide)]

theorem rstripCRLF_idem (X : Bytes) : rstripCRLF (rstripCRLF X) = rstripCRLF X := by
  unfold rstripCRLF
  rw [List.reverse_reverse, dropWhile_idem]

theorem isSuffixOf_two_append (A p' : Bytes) (hne : p' ≠ []) (hA : A.getLast? = some 10)
    (h : [45, 45].isSuffixOf p' = false) : [45, 45].isSuffixOf (A ++ p') = false := by
  have hrev : (([45, 45] : Bytes).reverse) = [45, 45] := rfl
  simp only [List.isSuffixOf, hrev] at h ⊢
  rw [List.reverse_append]
  cases p' with
  | nil => exact absurd rfl hne
  | cons x t =>
    cases t with
    | nil =>
      have hh : A.reverse.head? = some 10 := by rw [List.head?_reverse]; exact hA
      rcases hAr : A.reverse with _ | ⟨a, as⟩
      · rw [hAr] at hh; cases hh
      · rw [hAr] at hh
        injection hh with h10
        subst h10
        simp [List.isPrefixOf]
    | cons y u =>
      rw [Bool.eq_false_iff] at h ⊢
      intro hc
      apply h
      rw [isPrefixOf_iff_take] at hc ⊢
      rw [List.take_append_eq_append_take] at hc
      rw [show ([45, 45] : Bytes).length = 2 from rfl] at hc ⊢
      rw [show 2 - ((x :: y :: u).reverse).length = 0 by simp, List.take_zero,
        List.append_nil] at hc
      exact hc

theorem ciIsPrefix_take : ∀ (pat l : List Char),
    ciIsPrefix pat l = ciIsPrefix pat (l.take pat.length) := by
  intro pat
  induction pat with
  | nil => intro l; rfl
  | cons p ps ih =>
    intro l
    cases l with
    | nil => rfl
    | cons c cs =>
      simp only [ciIsPrefix, List.length_cons, List.take_succ_cons]
      rw [ih cs]

theorem ciIsPrefix_self_append : ∀ (pat rest : List Char),
    ciIsPrefix pat (pat ++ rest) = true := by
  intro pat rest
  induction pat with
  | nil => rfl
  | cons p ps ih => simpa [ciIsPrefix] using ih

theorem ciNoStart_of_window (pat X pad rest : List Char)
    (hlen : pat.length ≤ pad.length + 1) (hpref : pad.isPrefixOf rest = true)
    (hB : ciNoStartB pat X pad = true) :
    ∀ n, n < X.length → ciIsPrefix pat ((X ++ rest).drop n) = false := by
  intro n hn
  obtain ⟨t, rfl⟩ := prefixOf_exists hpref
  unfold ciNoStartB at hB
  have hB' := (List.all_eq_true.mp hB) n (List.mem_range.mpr hn)
  rw [Bool.not_eq_eq_eq_not, Bool.not_true] at hB'
  rw [ciIsPrefix_take] at hB' ⊢
  rw [← List.append_assoc]
  rw [take_drop_append (X ++ pad) t n pat.length (by rw [List.length_append]; omega)]
  exact hB'

theorem reFilename_skip : ∀ (X rest : List Char),
    (∀ n, n < X.length → ciIsPrefix ("filename=\"".toList) ((X ++ rest).drop n) = false) →
    reFilenameCapture (X ++ rest) = reFilenameCapture rest := by
  intro X
  induction X with
  | nil => intro rest _; rfl
  | cons c cs ih =>
    intro rest h
    have h0 := h 0 (by simp)
    rw [List.drop_zero, List.cons_append] at h0
    rw [List.cons_append]
    rw [reFilenameCapture]
    simp only [h0, Bool.false_eq_true, if_false]
    apply ih
    intro n hn
    have := h (n + 1) (by simp; omega)
    rwa [List.cons_append, List.drop_succ_cons] at this

theorem reFilename_found (fnl tail : List Char) (hne : fnl ≠ [])
    (hq : ∀ c ∈ fnl, c ≠ '"') :
    reFilenameCapture ("filename=\"".toList ++ (fnl ++ ('"' :: tail))) = some fnl := by
  have hcond := ciIsPrefix_self_append ("filename=\"".toList) (fnl ++ ('"' :: tail))
  have hpat : "filename=\"".toList = ['f', 'i', 'l', 'e', 'n', 'a', 'm', 'e', '=', '"'] := rfl
  rw [hpat] at hcond ⊢
  simp only [List.cons_append, List.nil_append] at hcond ⊢
  rw [reFilenameCapture]
  simp only [hcond, if_true]
  have hdrop : List.drop 10
      ('f' :: 'i' :: 'l' :: 'e' :: 'n' :: 'a' :: 'm' :: 'e' :: '=' :: '"' ::
        (fnl ++ '"' :: tail)) = fnl ++ '"' :: tail := rfl
  rw [hdrop]
  have htw : (fnl ++ '"' :: tail).takeWhile (fun x => x ≠ '"') = fnl := by
    rw [takeWhile_append_all _ fnl ('"' :: tail)
      (fun c hc => decide_eq_true (hq c hc))]
    simp [List.takeWhile_cons]
  have hdw : (fnl ++ '"' :: tail).dropWhile (fun x => x ≠ '"') = '"' :: tail := by
    rw [dropWhile_append_all _ fnl ('"' :: tail)
      (fun c hc => decide_eq_true (hq c hc))]
    simp [List.dropWhile_cons]
  rw [htw, hdw]
  have hcnd : fnl ≠ [] ∧ ('"' :: tail) ≠ [] := ⟨hne, by simp⟩
  rw [if_pos hcnd, hpat, if_pos hcond]

/-! ### C6: assembling the round trip -/

theorem parseMultipart_ct (body : Bytes) :
    parseMultipart body encodeMultipartCT = scanParts (splitOnSeq mpMarker body) := by
  have hb : reBoundaryCapture encodeMultipartCT.toList = some ("XBOUNDARYX".toList) := by
    decide
  simp only [parseMultipart, hb]
  rw [if_neg (by decide)]
  rw [show strBytesL ('-' :: '-' :: pyStripWSChars ("XBOUNDARYX".toList)) = mpMarker from
    by decide]

theorem encodeMultipart_decomp (fn : String) (payload : Bytes) :
    encodeMultipart fn payload =
      mpMarker ++ (([13, 10] ++ (mpHdrA ++ (strBytes fn ++ (mpHdrB ++ (payload ++ [13, 10])))))
        ++ (mpMarker ++ [45, 45])) := by
  unfold encodeMultipart
  simp [List.append_assoc]

theorem stripCRLF_seg (fnb payload : Bytes) (hp : rstripCRLF payload ≠ []) :
    stripCRLF ([13, 10] ++ (mpHdrA ++ (fnb ++ (mpHdrB ++ (payload ++ [13, 10]))))) =
      mpHdrA ++ (fnb ++ (mpHdrBHead ++ ([13, 10, 13, 10] ++ rstripCRLF payload))) := by
  have hL : ([13, 10] ++ (mpHdrA ++ (fnb ++ (mpHdrB ++ (payload ++ [13, 10]))))).dropWhile
      isCRLFb = mpHdrA ++ (fnb ++ (mpHdrB ++ (payload ++ [13, 10]))) := by
    rw [show ([13, 10] : Bytes) ++ (mpHdrA ++ (fnb ++ (mpHdrB ++ (payload ++ [13, 10])))) =
      13 :: 10 :: (mpHdrA ++ (fnb ++ (mpHdrB ++ (payload ++ [13, 10])))) from rfl]
    rw [List.dropWhile_cons, if_pos (by decide), List.dropWhile_cons, if_pos (by decide)]
    apply dropWhile_of_head_false _ _ 67
    · rw [head?_append_left _ _ (by decide)]
      decide
    · decide
  have hdef : ∀ xs : Bytes, stripCRLF xs = rstripCRLF (xs.dropWhile isCRLFb) :=
    fun xs => rfl
  rw [hdef, hL]
  rw [show mpHdrA ++ (fnb ++ (mpHdrB ++ (payload ++ [13, 10]))) =
    (mpHdrA ++ (fnb ++ mpHdrB)) ++ (payload ++ [13, 10]) from by simp [List.append_assoc]]
  rw [rstripCRLF_append _ _ (by rw [rstripCRLF_append_crlf]; exact hp)]
  rw [rstripCRLF_append_crlf]
  rw [show mpHdrB = mpHdrBHead ++ [13, 10, 13, 10] from by decide]
  simp [List.append_assoc]

theorem scanParts_skip_nil (r : List Bytes) : scanParts ([] :: r) = scanParts r := by
  simp only [scanParts]
  rw [show stripCRLF ([] : Bytes) = [] from rfl]
  rw [if_pos (Or.inl rfl)]

theorem scanParts_cons_success (p : Bytes) (rest : List Bytes) (s H dataB : Bytes)
    (hstrip : stripCRLF p = s)
    (hnil : s ≠ []) (hdd2 : s ≠ [45, 45])
    (hsuf : [45, 45].isSuffixOf s = false)
    (hfind : findSeq [13, 10, 13, 10] s = some H.length)
    (htake : s.take H.length = H)
    (hdrop : s.drop (H.length + 4) = dataB)
    (hcd : containsSeq "content-disposition".toList ((utf8Ignore H).map Char.toLower) = true)
    (hfe : containsSeq "filename=".toList ((utf8Ignore H).map Char.toLower) = true)
    (hdb : rstripCRLF dataB = dataB) (hdbne : dataB ≠ []) :
    scanParts (p :: rest) = some (dataB,
      (reContentTypeCapture (utf8Ignore H)).map (fun l => String.mk (pyStripWSChars l)),
      (reFilenameCapture (utf8Ignore H)).map (fun l => String.mk l)) := by
  simp only [scanParts]
  rw [hstrip]
  rw [if_neg (not_or.mpr ⟨hnil, hdd2⟩)]
  rw [hsuf]
  simp only [Bool.false_eq_true, if_false]
  simp only [hfind]
  rw [htake, hdrop, hdb]
  rw [hcd, hfe]
  rw [if_neg (show ¬¬(true = true) from not_not_intro rfl)]
  rw [if_neg (show ¬¬(true = true) from not_not_intro rfl)]
  rw [if_pos hdbne]

/-- The encoded one-file-part body parses back to the rstripped payload
and the exact filename, under the side conditions the minimal parser
needs: a sane ASCII filename, a payload that does not vanish under CRLF
trimming, that does not contain the boundary marker, and whose trimmed
form does not end in `--`. -/
theorem parseMultipart_encode (fn : String) (payload : Bytes)
    (hfn : filenameOk fn)
    (hofn : ¬ occursIn mpMarker (strBytes fn))
    (hp : rstripCRLF payload ≠ [])
    (hocc : ¬ occursIn mpMarker payload)
    (hdd : [45, 45].isSuffixOf (rstripCRLF payload) = false) :
    ∃ partCt, parseMultipart (encodeMultipart fn payload) encodeMultipartCT =
      some (rstripCRLF payload, partCt, some fn) := by
  obtain ⟨hne, hch⟩ := hfn
  have hascii : ∀ c ∈ fn.toList, c.toNat < 128 := fun c hc => (hch c hc).1
  have hfnb_eq : strBytes fn = fn.toList.map Char.toNat := strBytesL_ascii fn.toList hascii
  have hfnb_lt : ∀ b ∈ strBytes fn, b < 128 := by
    rw [hfnb_eq]
    intro b hb
    obtain ⟨c, hc, rfl⟩ := List.mem_map.mp hb
    exact (hch c hc).1
  have hnotb : ∀ (b : Nat) (ch : Char), ch.toNat = b → (∀ c ∈ fn.toList, c ≠ ch) →
      b ∉ strBytes fn := by
    intro b ch hb hall
    rw [hfnb_eq]
    intro hmem
    obtain ⟨c, hc, hcb⟩ := List.mem_map.mp hmem
    apply hall c hc
    have hcc : Char.ofNat c.toNat = Char.ofNat ch.toNat := by rw [hcb, hb]
    rwa [Char.ofNat_toNat, Char.ofNat_toNat] at hcc
  have h13 : (13 : Nat) ∉ strBytes fn :=
    hnotb 13 '\r' (by decide) (fun c hc => (hch c hc).2.2.1)
  have hfnl_ne : fn.toList ≠ [] := by
    intro h
    apply hne
    cases fn with
    | mk data =>
      have hd : data = [] := h
      rw [hd]
  have hmkfn : String.mk fn.toList = fn := by cases fn; rfl
  have hM2 : mpMarker = 45 :: 45 :: [88, 66, 79, 85, 78, 68, 65, 82, 89, 88] := by decide
  have hS4 : ([13, 10, 13, 10] : Bytes) = 13 :: 10 :: [13, 10] := rfl
  -- the body splits into the empty preamble, the part, and the terminal dashes
  have hns : noStartAt mpMarker
      ([13, 10] ++ (mpHdrA ++ (strBytes fn ++ (mpHdrB ++ (payload ++ [13, 10])))))
      (mpMarker ++ [45, 45]) := by
    apply noStartAt_append
    · exact noStartAt_of_head_notMem _ _ _ 45 _ hM2 (by decide)
    apply noStartAt_append
    · apply noStartAt_of_pairFree _ _ _ 45 45 _ hM2 (by decide)
      rintro ⟨hl, _⟩
      rw [show mpHdrA.getLast? = some 34 from by decide] at hl
      exact absurd (Option.some.inj hl) (by decide)
    apply noStartAt_append
    · apply noStartAt_of_notOccurs _ _ _ 34 hofn
      · rw [head?_append_left (mpHdrB ++ (payload ++ [13, 10])) (mpMarker ++ [45, 45])
          (append_ne_nil_left _ _ (by decide))]
        rw [head?_append_left mpHdrB (payload ++ [13, 10]) (by decide)]
        decide
      · decide
    apply noStartAt_append
    · apply noStartAt_of_pairFree _ _ _ 45 45 _ hM2 (by decide)
      rintro ⟨hl, _⟩
      rw [show mpHdrB.getLast? = some 10 from by decide] at hl
      exact absurd (Option.some.inj hl) (by decide)
    apply noStartAt_append
    · apply noStartAt_of_notOccurs _ _ _ 13 hocc
      · rfl
      · decide
    · exact noStartAt_of_head_notMem _ _ _ 45 _ hM2 (by decide)
  -- the stripped part decomposes into headers, blank line, trimmed payload
  have hchain := stripCRLF_seg (strBytes fn) payload hp
  have hregroup : mpHdrA ++ (strBytes fn ++ (mpHdrBHead ++
      ([13, 10, 13, 10] ++ rstripCRLF payload))) =
      (mpHdrA ++ (strBytes fn ++ mpHdrBHead)) ++ ([13, 10, 13, 10] ++ rstripCRLF payload)
      := by simp [List.append_assoc]
  have hhead67 : (stripCRLF ([13, 10] ++ (mpHdrA ++ (strBytes fn ++
      (mpHdrB ++ (payload ++ [13, 10])))))).head? = some 67 := by
    rw [hchain, head?_append_left _ _ (by decide)]
    decide
  have hnil : stripCRLF ([13, 10] ++ (mpHdrA ++ (strBytes fn ++
      (mpHdrB ++ (payload ++ [13, 10]))))) ≠ [] := by
    intro h
    rw [h] at hhead67
    cases hhead67
  have hdd2 : stripCRLF ([13, 10] ++ (mpHdrA ++ (strBytes fn ++
      (mpHdrB ++ (payload ++ [13, 10]))))) ≠ [45, 45] := by
    intro h
    rw [h] at hhead67
    exact absurd (Option.some.inj hhead67) (by decide)
  have hsuf : [45, 45].isSuffixOf (stripCRLF ([13, 10] ++ (mpHdrA ++ (strBytes fn ++
      (mpHdrB ++ (payload ++ [13, 10])))))) = false := by
    rw [hchain, hregroup, show (mpHdrA ++ (strBytes fn ++ mpHdrBHead)) ++
      ([13, 10, 13, 10] ++ rstripCRLF payload) =
      ((mpHdrA ++ (strBytes fn ++ mpHdrBHead)) ++ [13, 10, 13, 10]) ++ rstripCRLF payload
      from by simp [List.append_assoc]]
    apply isSuffixOf_two_append _ _ hp _ hdd
    rw [List.getLast?_append]
    rfl
  have hns4 : noStartAt [13, 10, 13, 10] (mpHdrA ++ (strBytes fn ++ mpHdrBHead))
      ([13, 10, 13, 10] ++ rstripCRLF payload) := by
    apply noStartAt_append
    · apply noStartAt_of_pairFree _ _ _ 13 10 _ hS4 (by decide)
      rintro ⟨hl, _⟩
      rw [show mpHdrA.getLast? = some 34 from by decide] at hl
      exact absurd (Option.some.inj hl) (by decide)
    apply noStartAt_append
    · exact noStartAt_of_head_notMem _ _ _ 13 _ hS4 h13
    · apply noStartAt_of_window _ _ [13, 10, 13] _ (by decide)
      · exact isPrefixOf_append_left _ _ _ (by decide)
      · decide
  have hfind : findSeq [13, 10, 13, 10] (stripCRLF ([13, 10] ++ (mpHdrA ++ (strBytes fn ++
      (mpHdrB ++ (payload ++ [13, 10])))))) =
      some (mpHdrA ++ (strBytes fn ++ mpHdrBHead)).length := by
    rw [hchain, hregroup]
    exact findSeq_append_of_noStart _ _ _ hns4 (by decide)
      (isPrefixOf_append_self _ _)
  have htake : (stripCRLF ([13, 10] ++ (mpHdrA ++ (strBytes fn ++
      (mpHdrB ++ (payload ++ [13, 10])))))).take
      (mpHdrA ++ (strBytes fn ++ mpHdrBHead)).length =
      mpHdrA ++ (strBytes fn ++ mpHdrBHead) := by
    rw [hchain, hregroup, List.take_left]
  have hdrop : (stripCRLF ([13, 10] ++ (mpHdrA ++ (strBytes fn ++
      (mpHdrB ++ (payload ++ [13, 10])))))).drop
      ((mpHdrA ++ (strBytes fn ++ mpHdrBHead)).length + 4) = rstripCRLF payload := by
    rw [hchain, hregroup]
    rw [show (mpHdrA ++ (strBytes fn ++ mpHdrBHead)) ++
      ([13, 10, 13, 10] ++ rstripCRLF payload) =
      ((mpHdrA ++ (strBytes fn ++ mpHdrBHead)) ++ [13, 10, 13, 10]) ++ rstripCRLF payload
      from by simp [List.append_assoc]]
    rw [show (mpHdrA ++ (strBytes fn ++ mpHdrBHead)).length + 4 =
      ((mpHdrA ++ (strBytes fn ++ mpHdrBHead)) ++ [13, 10, 13, 10]).length
      from by simp only [List.length_append, List.length_cons, List.length_nil]]
    rw [List.drop_left]
  have hdec : utf8Ignore (mpHdrA ++ (strBytes fn ++ mpHdrBHead)) =
      ("Content-Disposition: form-data; name=\"file\"; filename=\"".toList) ++
      (fn.toList ++ ("\"\r\nContent-Type: application/pdf".toList)) := by
    rw [utf8Ignore_ascii_append mpHdrA _ (by decide)]
    rw [utf8Ignore_ascii_append (strBytes fn) _ hfnb_lt]
    rw [show utf8Ignore mpHdrBHead = "\"\r\nContent-Type: application/pdf".toList from
      by decide]
    rw [show mpHdrA.map Char.ofNat =
      "Content-Disposition: form-data; name=\"file\"; filename=\"".toList from by decide]
    rw [hfnb_eq, map_ofNat_toNat]
  have hcd : containsSeq "content-disposition".toList
      ((utf8Ignore (mpHdrA ++ (strBytes fn ++ mpHdrBHead))).map Char.toLower) = true := by
    rw [hdec, List.map_append]
    exact containsSeq_append_left _ _ _ (by decide)
  have hfe : containsSeq "filename=".toList
      ((utf8Ignore (mpHdrA ++ (strBytes fn ++ mpHdrBHead))).map Char.toLower) = true := by
    rw [hdec, List.map_append]
    exact containsSeq_append_left _ _ _ (by decide)
  have hfnc : reFilenameCapture
      (("Content-Disposition: form-data; name=\"file\"; filename=\"".toList) ++
        (fn.toList ++ ("\"\r\nContent-Type: application/pdf".toList))) = some fn.toList := by
    rw [show "Content-Disposition: form-data; name=\"file\"; filename=\"".toList =
      ("Content-Disposition: form-data; name=\"file\"; ".toList) ++
      ("filename=\"".toList) from by decide]
    rw [List.append_assoc]
    rw [reFilename_skip _ _ (ciNoStart_of_window _ _ ("filename=".toList) _ (by decide)
      (isPrefixOf_append_left _ _ _ (by decide)) (by decide))]
    rw [show ("\"\r\nContent-Type: application/pdf".toList) =
      '"' :: ("\r\nContent-Type: application/pdf".toList) from by decide]
    exact reFilename_found fn.toList _ hfnl_ne (fun c hc => (hch c hc).2.1)
  refine ⟨(reContentTypeCapture (utf8Ignore (mpHdrA ++ (strBytes fn ++ mpHdrBHead)))).map
    (fun l => String.mk (pyStripWSChars l)), ?_⟩
  rw [parseMultipart_ct, encodeMultipart_decomp]
  rw [splitOnSeq_three mpMarker _ [45, 45] (by decide) hns (by decide)]
  rw [scanParts_skip_nil]
  rw [scanParts_cons_success _ [[45, 45]] _ (mpHdrA ++ (strBytes fn ++ mpHdrBHead))
    (rstripCRLF payload) rfl hnil hdd2 hsuf hfind htake hdrop hcd hfe
    (rstripCRLF_idem payload) hp]
  rw [hdec, hfnc]
  rw [Option.map_some', hmkfn]

theorem findSeq_none_iff (sep : List Nat) : ∀ xs : List Nat,
    findSeq sep xs = none ↔ ∀ n, sep.isPrefixOf (xs.drop n) = false := by
  intro xs
  induction xs with
  | nil =>
    constructor
    · intro h n
      cases sep with
      | nil => simp [findSeq] at h
      | cons a as => simp [List.isPrefixOf]
    · intro h
      cases sep with
      | nil =>
        have := h 0
        simp [List.isPrefixOf] at this
      | cons a as => rfl
  | cons x xs ih =>
    simp only [findSeq]
    by_cases hp : sep.isPrefixOf (x :: xs) = true
    · rw [if_pos hp]
      constructor
      · intro h; cases h
      · intro h
        have := h 0
        rw [List.drop_zero, hp] at this
        cases this
    · rw [if_neg hp]
      constructor
      · intro h n
        cases n with
        | zero =>
          rw [List.drop_zero]
          exact Bool.eq_false_iff.mpr hp
        | succ m =>
          rw [List.drop_succ_cons]
          rcases ho : findSeq sep xs with _ | j
          · exact (ih.mp ho) m
          · rw [ho] at h; simp at h
      · intro h
        rcases ho : findSeq sep xs with _ | j
        · rfl
        · exfalso
          have hall : ∀ n, sep.isPrefixOf (xs.drop n) = false := by
            intro n
            have := h (n + 1)
            rwa [List.drop_succ_cons] at this
          rw [ih.mpr hall] at ho
          cases ho

theorem not_occursIn_of_findSeq_none (sep xs : List Nat) (h : findSeq sep xs = none) :
    ¬ occursIn sep xs := by
  rintro ⟨n, hn⟩
  rw [findSeq_none_iff] at h
  rw [h n] at hn
  cases hn

/-! ### C6: MultipartExtractor round-trip -/

/-- C6 counterexample: the round trip is not exact for every payload — a
payload ending in a LF byte (here `[65, 10]`, i.e. `A\n`) comes back with
the trailing byte stripped, because the parser trims trailing CRLF bytes
from the part body. -/
theorem c6_counterexample :
    ¬ ∃ partCt, parseMultipart (encodeMultipart "doc.pdf" [65, 10]) encodeMultipartCT =
      some ([65, 10], partCt, some "doc.pdf") := by
  obtain ⟨ct0, h0⟩ := parseMultipart_encode "doc.pdf" [65, 10] (by
      constructor
      · decide
      · decide)
    (not_occursIn_of_findSeq_none _ _ (by decide))
    (by decide)
    (not_occursIn_of_findSeq_none _ _ (by decide))
    (by decide)
  rw [show rstripCRLF [65, 10] = [65] from by decide] at h0
  rintro ⟨ct, hc⟩
  rw [h0] at hc
  simp at hc

/-- C6 (amended): the round trip is exact for every non-empty ASCII
filename free of quote/CR/LF characters and of the boundary marker, and
every non-empty payload that does not contain the boundary marker
`--XBOUNDARYX`, is unchanged by trailing-CRLF trimming, and does not end
in two hyphens; extraction then returns exactly that payload and
filename.  (A payload with trailing CR/LF bytes instead comes back
trimmed.) -/
theorem c6_roundtrip :
    ∀ (fn : String) (payload : Bytes),
      filenameOk fn →
      ¬ occursIn mpMarker (strBytes fn) →
      ¬ occursIn mpMarker payload →
      payload ≠ [] →
      rstripCRLF payload = payload →
      [45, 45].isSuffixOf payload = false →
      ∃ partCt, parseMultipart (encodeMultipart fn payload) encodeMultipartCT =
        some (payload, partCt, some fn) := by
  intro fn payload hfn hofn hocc hne hr hdd
  have h := parseMultipart_encode fn payload hfn hofn (by rw [hr]; exact hne) hocc
    (by rw [hr]; exact hdd)
  rwa [hr] at h

/-- C6 witness: a five-byte PDF-signature payload under `doc.pdf` round
trips exactly. -/
theorem c6_witness :
    ∃ partCt, parseMultipart (encodeMultipart "doc.pdf" [37, 80, 68, 70, 49])
      encodeMultipartCT = some ([37, 80, 68, 70, 49], partCt, some "doc.pdf") :=
  c6_roundtrip "doc.pdf" [37, 80, 68, 70, 49]
    ⟨by decide, by decide⟩
    (not_occursIn_of_findSeq_none _ _ (by decide))
    (not_occursIn_of_findSeq_none _ _ (by decide))
    (by decide) (by decide) (by decide)

end Voyadecir
